import Mathlib

/-!
Verification development for the riscverifier translation core.

The Lean definitions below are a shallow embedding of the Rust sources:
  * `helpers`        embeds `utils/src/helpers.rs`
  * `constants`      models the external `utils::constants` module (names fixed by the spec)
  * `veriv_ast`      embeds `asts/src/veriv_ast.rs` (the verification IR)
  * `sl_ast`         embeds `asts/src/spec_lang/sl_ast.rs` (the specification IR)
  * `dwarf`          models the external `dwarf_ctx::dwarfreader` interface
  * `system_model`   models the external `rv_model::system_model` library
  * `riscverifier`   embeds the spec-lowering passes of `src/lib.rs`
  * `translator`     embeds `src/translator.rs`
  * `uclid`          embeds `src/verification_interfaces/uclidinterface.rs`

Machine integers are embedded as `Nat` with explicit reduction modulo `2 ^ 64`
(the release-mode wrap-around semantics of Rust's `u64`); `i64` casts are made
explicit through `to_i64` / `of_i64`.  Rust panics (`unwrap`, `expect`,
`panic!` calls, index-out-of-bounds) are embedded as `Option`/`Except`
failures.  Rust `HashSet<String>` values are embedded as `Finset String`;
hash-map/assoc lookups as association lists whose lookup takes the first
match (the behaviour of `HashMap::insert` followed by `get`).
-/

-- ================================================================
-- Generic list/sort/string helpers used by several embeddings

/-- Insertion of an element into a list according to a boolean comparator;
together with `sortByB` this is a stable sort used to embed Rust's
`Vec::sort` (stable) on the orders that appear in the sources. -/
def ordInsert {α : Type} (le : α → α → Bool) (a : α) : List α → List α
  | [] => [a]
  | b :: t => if le a b then a :: b :: t else b :: ordInsert le a t

/-- Stable insertion sort by a boolean comparator (embeds `Vec::sort`). -/
def sortByB {α : Type} (le : α → α → Bool) : List α → List α
  | [] => []
  | a :: t => ordInsert le a (sortByB le t)

/-- Lexicographic comparison of character lists by code point, embedding the
`Ord` instance Rust uses for `String`. -/
def listLe : List Char → List Char → Bool
  | [], _ => true
  | _ :: _, [] => false
  | a :: s, b :: t =>
      if a.toNat < b.toNat then true
      else if b.toNat < a.toNat then false
      else listLe s t

/-- Lexicographic string comparison (embeds `str::cmp` as a `≤` test). -/
def strLeB (a b : String) : Bool := listLe a.data b.data

/-- Lookup in an association list, first match wins (embeds `HashMap::get`
after a sequence of `insert`s when the list is built by prepending). -/
def alistGet {α : Type} (l : List (String × α)) (k : String) : Option α :=
  (l.find? (fun p => p.1 = k)).map (·.2)

/-- Alias for `Bool`, used in constructor telescopes whose constructor is
itself named `Bool`. -/
abbrev RBool : Type := Bool

/-- Alias for `Int`, used in constructor telescopes whose constructor is
itself named `Int`. -/
abbrev RInt : Type := Int

-- ================================================================
-- u64 arithmetic (explicit wrap-around at 2 ^ 64)

/-- Modulus of the `u64` machine integers. -/
def U64_MOD : Nat := 2 ^ 64

/-- Wrap-around `u64` addition. -/
def u64_add (a b : Nat) : Nat := (a + b) % U64_MOD

/-- Wrap-around `u64` subtraction. -/
def u64_sub (a b : Nat) : Nat := (a % U64_MOD + (U64_MOD - b % U64_MOD)) % U64_MOD

/-- Wrap-around `u64` multiplication. -/
def u64_mul (a b : Nat) : Nat := (a * b) % U64_MOD

/-- Left shift on `u64`; the shift amount is taken modulo 64, the
release-mode behaviour of Rust's `<<`. -/
def u64_shl (a b : Nat) : Nat := (a <<< (b % 64)) % U64_MOD

/-- Logical (zero-filling) right shift on `u64`. -/
def u64_lshr (a b : Nat) : Nat := (a % U64_MOD) >>> (b % 64)

/-- Reinterpretation of a `u64` bit pattern as an `i64` (the Rust `as i64`
cast). -/
def to_i64 (a : Nat) : Int :=
  if a % U64_MOD < 2 ^ 63 then ((a % U64_MOD : Nat) : Int)
  else ((a % U64_MOD : Nat) : Int) - (U64_MOD : Int)

/-- Reinterpretation of an `i64` value as a `u64` bit pattern (the Rust
`as u64` cast). -/
def of_i64 (z : Int) : Nat := (z % (U64_MOD : Int)).toNat

/-- Arithmetic (sign-replicating) right shift: the `u64` embedding of
`((a as i64) >> b) as u64`.  Arithmetic shift of an `i64` equals flooring
division by the corresponding power of two. -/
def u64_ashr (a b : Nat) : Nat := of_i64 (Int.fdiv (to_i64 a) ((2 : Int) ^ (b % 64)))

-- ================================================================
-- utils/src/helpers.rs

namespace helpers

/-- Embeds `helpers::mask`: the loop `for i in 0..63` sets bit `i` whenever
`r <= i && i <= l`.  Note the loop bound: `0..63` ranges over `0..=62`, so
bit 63 is never set. -/
def mask (l r : Nat) : Nat :=
  (List.range 63).foldl (fun m i => if r ≤ i ∧ i ≤ l then m ||| (1 <<< i) else m) 0

/-- Embeds `helpers::abs_access_name`. -/
def abs_access_name (addr : Nat) : String := "mem_access_" ++ toString addr

/-- Embeds `helpers::global_var_ptr_name`. -/
def global_var_ptr_name (name : String) : String := "global_var_" ++ name

/-- Embeds `helpers::global_func_addr_name`. -/
def global_func_addr_name (name : String) : String := "global_func_" ++ name

end helpers

-- ================================================================
-- utils::constants (external module; names fixed by the specification)

namespace constants

/-- Modelled from the spec: name of the program-counter system variable. -/
def PC_VAR : String := "pc"

/-- Modelled from the spec: name of the returned flag system variable. -/
def RETURNED_FLAG : String := "returned"

/-- Modelled from the spec: name of the privilege-level system variable. -/
def PRIV_VAR : String := "priv"

/-- Modelled from the spec: byte-granularity memory array name (`mem_b` = 8 bits). -/
def MEM_VAR_B : String := "mem_b"

/-- Modelled from the spec: half-word memory array name (`mem_h` = 16 bits). -/
def MEM_VAR_H : String := "mem_h"

/-- Modelled from the spec: word memory array name (`mem_w` = 32 bits). -/
def MEM_VAR_W : String := "mem_w"

/-- Modelled from the spec: double-word memory array name (`mem_d` = 64 bits). -/
def MEM_VAR_D : String := "mem_d"

/-- Modelled from the spec: the `a0` argument register name. -/
def A0 : String := "a0"

/-- Modelled from the spec: the stack-pointer register name. -/
def SP : String := "sp"

/-- Modelled from the spec: the return-address register name. -/
def RA : String := "ra"

/-- Modelled from the spec: the `jal` mnemonic used to detect calls. -/
def JAL : String := "jal"

/-- Modelled from the spec: bits per byte. -/
def BYTE_SIZE : Nat := 8

end constants

-- ================================================================
-- asts/src/veriv_ast.rs : the verification IR (VIR)

namespace veriv_ast

/-- Embeds `veriv_ast::Type` (named `Ty` because `Type` is reserved in Lean).
Struct fields are a `BTreeMap<String, Box<Type>>` in the source, embedded as
an association list. -/
inductive Ty : Type where
  | Unknown : Ty
  | Bool : Ty
  | Int : Ty
  | Bv : Nat → Ty
  | Array : List Ty → Ty → Ty
  | Struct : String → List (String × Ty) → Nat → Ty

/-- Embeds `veriv_ast::Literal`. -/
inductive Lit : Type where
  | Bv : Nat → Nat → Lit
  | Bool : RBool → Lit
  | Int : Nat → Lit

/-- Embeds `veriv_ast::Literal::get_expect_bv_width` (panics on non-bv). -/
def Lit.get_expect_bv_width : Lit → Option Nat
  | Lit.Bv _ width => some width
  | _ => none

/-- Embeds `veriv_ast::Var`. -/
structure Var : Type where
  name : String
  typ : Ty

/-- Embeds `veriv_ast::CompOp`. -/
inductive CompOp : Type where
  | Equality | Inequality | Lt | Le | Gt | Ge | Ltu | Leu | Gtu | Geu

/-- Embeds `veriv_ast::BVOp`. -/
inductive BVOp : Type where
  | Add | Sub | Mul | And | Or | Xor | SignExt | ZeroExt
  | LeftShift | RightShift | ARightShift | Concat
  | Slice (l : Nat) (r : Nat)

/-- Embeds `veriv_ast::BoolOp`. -/
inductive BoolOp : Type where
  | Conj | Disj | Iff | Impl | Neg

/-- Embeds `veriv_ast::Op`. -/
inductive Op : Type where
  | Comp : CompOp → Op
  | Bv : BVOp → Op
  | Bool : BoolOp → Op
  | ArrayIndex : Op
  | GetField : String → Op

/-- Embeds `veriv_ast::Expr`; the `OpApp`/`FuncApp` payload structs are
flattened into the constructors. -/
inductive Expr : Type where
  | Literal : Lit → Ty → Expr
  | Var : Var → Ty → Expr
  | OpApp : Op → List Expr → Ty → Expr
  | FuncApp : String → List Expr → Ty → Expr

/-- Embeds `Expr::typ`. -/
def Expr.typ : Expr → Ty
  | Expr.Literal _ t | Expr.Var _ t | Expr.OpApp _ _ t | Expr.FuncApp _ _ t => t

/-- Embeds `Expr::get_var_name` (panics on non-variables). -/
def Expr.get_var_name : Expr → Option String
  | Expr.Var v _ => some v.name
  | _ => none

/-- Embeds `Expr::is_var`. -/
def Expr.is_var : Expr → Bool
  | Expr.Var _ _ => true
  | _ => false

/-- Embeds `Expr::is_lit`. -/
def Expr.is_lit : Expr → Bool
  | Expr.Literal _ _ => true
  | _ => false

/-- Embeds `Expr::get_lit`. -/
def Expr.get_lit : Expr → Option Lit
  | Expr.Literal l _ => some l
  | _ => none

/-- Embeds `Expr::get_lit_value` (booleans encoded as 0/1). -/
def Expr.get_lit_value : Expr → Option Nat
  | Expr.Literal (Lit.Bv val _) _ => some val
  | Expr.Literal (Lit.Bool val) _ => some (if val then 1 else 0)
  | Expr.Literal (Lit.Int val) _ => some val
  | _ => none

/-- Embeds `Expr::get_expect_bv_width` (defined only on bv literals). -/
def Expr.get_expect_bv_width : Expr → Option Nat
  | Expr.Literal lit _ => lit.get_expect_bv_width
  | _ => none

/-- Embeds `Expr::bv_lit`. -/
def Expr.bv_lit (val width : Nat) : Expr := Expr.Literal (Lit.Bv val width) (Ty.Bv width)

/-- Embeds `Expr::int_lit`. -/
def Expr.int_lit (val : Nat) : Expr := Expr.Literal (Lit.Int val) Ty.Int

/-- Embeds `Expr::bool_lit`. -/
def Expr.bool_lit (val : Bool) : Expr := Expr.Literal (Lit.Bool val) Ty.Bool

/-- Embeds `Expr::var`. -/
def Expr.var (name : String) (typ : Ty) : Expr := Expr.Var ⟨name, typ⟩ typ

/-- Embeds `Expr::op_app`, including the panics for indexing a non-array,
selecting a field from a non-struct, a missing field, and an empty operand
list for a bitvector operator. -/
def Expr.op_app (op : Op) (operands : List Expr) : Option Expr := do
  let typ ← match op with
    | Op.Comp _ | Op.Bool _ => pure Ty.Bool
    | Op.Bv _ => do
        let e0 ← operands.head?
        pure e0.typ
    | Op.ArrayIndex => do
        let e0 ← operands.head?
        match e0.typ with
        | Ty.Array _ out_typ => pure out_typ
        | _ => none
    | Op.GetField f => do
        let e0 ← operands.head?
        match e0.typ with
        | Ty.Struct _ fields _ => alistGet fields f
        | _ => none
  pure (Expr.OpApp op operands typ)

/-- Embeds `Expr::func_app`. -/
def Expr.func_app (func_name : String) (operands : List Expr) (typ : Ty) : Expr :=
  Expr.FuncApp func_name operands typ

/-- Embeds `OpApp::get_array_expr` at the expression level
(`Expr::get_array_expr`). -/
def Expr.get_array_expr : Expr → Option Expr
  | Expr.OpApp Op.ArrayIndex operands _ => operands.head?
  | _ => none

/-- Embeds `OpApp::get_array_index` at the expression level
(`Expr::get_array_index`). -/
def Expr.get_array_index : Expr → Option Expr
  | Expr.OpApp Op.ArrayIndex operands _ => operands.get? 1
  | _ => none

/-- Embeds `veriv_ast::Stmt`; the `FuncCall`/`Assign`/`IfThenElse` payload
structs are flattened into the constructors. -/
inductive Stmt : Type where
  | Assume : Expr → Stmt
  | FuncCall : String → List Expr → List Expr → Stmt
  | Assign : List Expr → List Expr → Stmt
  | IfThenElse : Expr → Stmt → Option Stmt → Stmt
  | Block : List Stmt → Stmt
  | Comment : String → Stmt

/-- Embeds `Stmt::is_blk`. -/
def Stmt.is_blk : Stmt → Bool
  | Stmt.Block _ => true
  | _ => false

/-- Embeds `Stmt::get_expect_block` (panics on non-blocks). -/
def Stmt.get_expect_block : Stmt → Option (List Stmt)
  | Stmt.Block b => some b
  | _ => none

/-- Embeds `Stmt::func_call`. -/
def Stmt.func_call (func_name : String) (lhs operands : List Expr) : Stmt :=
  Stmt.FuncCall func_name lhs operands

/-- Embeds `Stmt::if_then_else`. -/
def Stmt.if_then_else (cond : Expr) (then_stmt : Stmt) (else_stmt : Option Stmt) : Stmt :=
  Stmt.IfThenElse cond then_stmt else_stmt

/-- Embeds `Stmt::assign`. -/
def Stmt.assign (lhs rhs : List Expr) : Stmt := Stmt.Assign lhs rhs

end veriv_ast

-- ================================================================
-- asts/src/spec_lang/sl_ast.rs : the specification IR (SIR)

namespace sl_ast

open veriv_ast in
/-- Embeds `sl_ast::VType`.  The `u16` widths become `Nat`; all casts
`as u16` in the source are embedded as reduction modulo `2 ^ 16`.  Struct
fields are a `HashMap<String, Box<VType>>`, embedded as an association
list. -/
inductive VType : Type where
  | Unknown : VType
  | Bv : Nat → VType
  | Int : VType
  | Bool : VType
  | Array : VType → VType → VType
  | Struct : String → List (String × VType) → Nat → VType

/-- Embeds `VType::get_array_out_type` (panics on non-arrays). -/
def VType.get_array_out_type : VType → Option VType
  | VType.Array _ out_type => some out_type
  | _ => none

/-- Embeds `VType::get_array_out_type_size` (the bv width or struct size of
the element type; panics otherwise). -/
def VType.get_array_out_type_size : VType → Option Nat
  | VType.Array _ out_type =>
      match out_type with
      | VType.Bv w => some w
      | VType.Struct _ _ size => some size
      | _ => none
  | _ => none

/-- Embeds `VType::get_bv_width` (panics on non-bv types). -/
def VType.get_bv_width : VType → Option Nat
  | VType.Bv width => some width
  | _ => none

/-- Embeds `sl_ast::ValueOp`. -/
inductive ValueOp : Type where
  | Add | Sub | Div | Mul | BvXor | BvOr | BvAnd
  | RightShift | URightShift | LeftShift
  | ArrayIndex | GetField
  | Slice (lo : Nat) (hi : Nat)
  | Concat | Deref

/-- Embeds `sl_ast::VExpr`. -/
inductive VExpr : Type where
  | Bv : Nat → VType → VExpr
  | Int : RInt → VType → VExpr
  | Bool : RBool → VType → VExpr
  | Ident : String → VType → VExpr
  | OpApp : ValueOp → List VExpr → VType → VExpr
  | FuncApp : String → List VExpr → VType → VExpr

/-- Embeds `VExpr::typ`. -/
def VExpr.typ : VExpr → VType
  | VExpr.Bv _ t | VExpr.Int _ t | VExpr.Bool _ t
  | VExpr.Ident _ t | VExpr.OpApp _ _ t | VExpr.FuncApp _ _ t => t

/-- Embeds `VExpr::is_lit`. -/
def VExpr.is_lit : VExpr → RBool
  | VExpr.Bv _ _ | VExpr.Int _ _ | VExpr.Bool _ _ => true
  | _ => false

/-- Embeds `VExpr::get_lit_value`; the `i64` payload of `Int` is cast
`as u64`. -/
def VExpr.get_lit_value : VExpr → Option Nat
  | VExpr.Bv value _ => some value
  | VExpr.Int value _ => some (of_i64 value)
  | VExpr.Bool b _ => some (if b then 1 else 0)
  | _ => none

/-- Embeds `VExpr::get_ident_name` (panics on non-identifiers). -/
def VExpr.get_ident_name : VExpr → Option String
  | VExpr.Ident name _ => some name
  | _ => none

mutual

/-- Boolean structural equality on `VType`, embedding the derived
`PartialEq` of the source (the unordered `HashMap` field comparison is
approximated by ordered association-list comparison). -/
def VType.beq : VType → VType → RBool
  | VType.Unknown, VType.Unknown => true
  | VType.Bv w1, VType.Bv w2 => w1 = w2
  | VType.Int, VType.Int => true
  | VType.Bool, VType.Bool => true
  | VType.Array i1 o1, VType.Array i2 o2 => VType.beq i1 i2 && VType.beq o1 o2
  | VType.Struct id1 f1 s1, VType.Struct id2 f2 s2 =>
      id1 = id2 && VType.fields_beq f1 f2 && s1 = s2
  | _, _ => false

/-- Field-list part of `VType.beq`. -/
def VType.fields_beq : List (String × VType) → List (String × VType) → RBool
  | [], [] => true
  | (n1, t1) :: r1, (n2, t2) :: r2 => n1 = n2 && VType.beq t1 t2 && VType.fields_beq r1 r2
  | _, _ => false

end

/-- Embeds `VType::infer_op_type`; every `panic!` becomes `none`.  Rust
indexing `exprs[1]` out of bounds is a panic as well. -/
def VType.infer_op_type (op : ValueOp) (exprs : List VExpr) : Option VType :=
  if exprs.length = 0 then none
  else
    match op with
    | ValueOp.ArrayIndex => do
        let e0 ← exprs.head?
        match e0.typ with
        | VType.Array _ out_type => some out_type
        | _ => none
    | ValueOp.Slice lo hi => some (VType.Bv (hi - lo))
    | ValueOp.GetField => do
        let e0 ← exprs.head?
        match e0.typ with
        | VType.Struct _ fields _ => do
            let e1 ← exprs.get? 1
            match e1 with
            | VExpr.Ident name _ => alistGet fields name
            | _ => none
        | _ => none
    | ValueOp.Add | ValueOp.Sub | ValueOp.Div | ValueOp.Mul
    | ValueOp.BvXor | ValueOp.BvOr | ValueOp.BvAnd | ValueOp.Deref => do
        let e0 ← exprs.head?
        if exprs.all (fun e => VType.beq e0.typ e.typ) then some e0.typ else none
    | ValueOp.Concat => do
        let e0 ← exprs.head?
        let e1 ← exprs.get? 1
        let w0 ← e0.typ.get_bv_width
        let w1 ← e1.typ.get_bv_width
        some (VType.Bv (w0 + w1))
    | ValueOp.RightShift | ValueOp.URightShift | ValueOp.LeftShift => do
        let e1 ← exprs.get? 1
        some e1.typ

/-- Embeds `VType::infer_func_app_type`; the extension amount is cast
`as u16`. -/
def VType.infer_func_app_type (fapp : String) (exprs : List VExpr) : Option VType :=
  if exprs.length = 0 then none
  else if fapp = "old" ∨ fapp = "value" then do
    let e0 ← exprs.head?
    some e0.typ
  else if fapp = "sext" ∨ fapp = "uext" then do
    let e1 ← exprs.get? 1
    let expr_width ← e1.typ.get_bv_width
    let e0 ← exprs.head?
    let ext_width ← e0.get_lit_value
    some (VType.Bv (expr_width + ext_width % 2 ^ 16))
  else none

mutual

/-- Embeds `VType::from_ast_type` (widths cast `as u16`).  The array case
indexes `in_typs[0]`, a panic when the list is empty, hence `Option`. -/
def VType.from_ast_type : veriv_ast.Ty → Option VType
  | veriv_ast.Ty.Unknown => some VType.Unknown
  | veriv_ast.Ty.Bool => some VType.Bool
  | veriv_ast.Ty.Int => some VType.Int
  | veriv_ast.Ty.Bv w => some (VType.Bv (w % 2 ^ 16))
  | veriv_ast.Ty.Array [] _ => none
  | veriv_ast.Ty.Array (t0 :: _) out_typ => do
      let in_type ← VType.from_ast_type t0
      let out_type ← VType.from_ast_type out_typ
      some (VType.Array in_type out_type)
  | veriv_ast.Ty.Struct id fields w => do
      let fs ← VType.from_ast_type_fields fields
      some (VType.Struct id fs w)

/-- Field-list part of `VType.from_ast_type`. -/
def VType.from_ast_type_fields :
    List (String × veriv_ast.Ty) → Option (List (String × VType))
  | [] => some []
  | (n, t) :: r => do
      let t' ← VType.from_ast_type t
      let r' ← VType.from_ast_type_fields r
      some ((n, t') :: r')

end

/-- Embeds `sl_ast::BoolOp` (quantifiers carry a bound variable and its
type). -/
inductive BoolOp : Type where
  | Conj | Disj | Neg | Implies
  | Forall (v : VExpr) (t : VType)
  | Exists (v : VExpr) (t : VType)

/-- Embeds `sl_ast::CompOp`. -/
inductive CompOp : Type where
  | Equal | Nequal | Gt | Lt | Gtu | Ltu | Geq | Leq | Geu | Leu

/-- Embeds `sl_ast::BExpr`. -/
inductive BExpr : Type where
  | Bool : RBool → BExpr
  | BOpApp : BoolOp → List BExpr → BExpr
  | COpApp : CompOp → List VExpr → BExpr

/-- Embeds `sl_ast::Spec`; the `Modifies` hash set becomes a `Finset`. -/
inductive Spec : Type where
  | Requires : BExpr → Spec
  | Ensures : BExpr → Spec
  | Modifies : Finset String → Spec
  | Track : String → VExpr → Spec

end sl_ast

-- ================================================================
-- dwarf_ctx::dwarfreader : external interface (shape from spec section 6)

namespace dwarf

/-- Modelled from the spec: `DwarfTypeDefn` of the external DWARF reader,
with variants `Primitive{bytes}`, `Pointer{value_typ, bytes}`,
`Array{in_typ, out_typ, bytes}` and `Struct{id, fields, bytes}`; a struct
field carries its type and its byte offset `loc`. -/
inductive DwarfTypeDefn : Type where
  | Primitive (bytes : Nat)
  | Pointer (value_typ : DwarfTypeDefn) (bytes : Nat)
  | Array (in_typ : DwarfTypeDefn) (out_typ : DwarfTypeDefn) (bytes : Nat)
  | Struct (id : String) (fields : List (String × DwarfTypeDefn × Nat)) (bytes : Nat)

/-- Modelled from the spec: a DWARF global variable (`name`, `memory_addr`,
`typ_defn`). -/
structure DwarfVar : Type where
  name : String
  memory_addr : Nat
  typ_defn : DwarfTypeDefn

/-- Modelled from the spec: a formal argument of a DWARF function signature. -/
structure DwarfFormal : Type where
  name : String
  typ_defn : DwarfTypeDefn

/-- Modelled from the spec: a DWARF function signature (`args`, `ret_type`). -/
structure DwarfFuncSig : Type where
  args : List DwarfFormal
  ret_type : Option DwarfTypeDefn

/-- Modelled from the spec: the DWARF context handed to the translator;
`globals` and `func_sigs_list` are the finite contents behind
`global_vars()` and `func_sigs()`, listed in the reader's iteration order. -/
structure DwarfCtx : Type where
  xlen : Nat
  globals : List DwarfVar
  func_sigs_list : List (String × DwarfFuncSig)

/-- Modelled from the spec: `DwarfCtx::global_var` (an `Err` becomes
`none`). -/
def DwarfCtx.global_var (c : DwarfCtx) (name : String) : Option DwarfVar :=
  c.globals.find? (fun v => v.name = name)

/-- Modelled from the spec: `DwarfCtx::global_var_type`. -/
def DwarfCtx.global_var_type (c : DwarfCtx) (name : String) : Option DwarfTypeDefn :=
  (c.global_var name).map (·.typ_defn)

/-- Modelled from the spec: `DwarfCtx::func_sig` (an `Err` becomes `none`). -/
def DwarfCtx.func_sig (c : DwarfCtx) (name : String) : Option DwarfFuncSig :=
  alistGet c.func_sigs_list name

end dwarf

-- ================================================================
-- rv_model::system_model : external system-model library

namespace system_model

open veriv_ast

/-- Modelled from the spec: `system_model::bv_type`. -/
def bv_type (w : Nat) : Ty := Ty.Bv w

/-- Modelled from the spec: the PC register type is a bitvector at XLEN. -/
def pc_type (xlen : Nat) : Ty := bv_type xlen

/-- Modelled from the spec: the returned flag is a one-bit bitvector (the
translator itself constructs it with `bv_type(1)`). -/
def returned_type : Ty := bv_type 1

/-- Modelled from the spec: the privilege-level type; the spec fixes no
width, two bits are used here. -/
def priv_type : Ty := bv_type 2

/-- Modelled from the spec: byte-granularity memory array type. -/
def mem_b_type (xlen : Nat) : Ty := Ty.Array [bv_type xlen] (bv_type 8)

/-- Modelled from the spec: half-word memory array type. -/
def mem_h_type (xlen : Nat) : Ty := Ty.Array [bv_type xlen] (bv_type 16)

/-- Modelled from the spec: word memory array type. -/
def mem_w_type (xlen : Nat) : Ty := Ty.Array [bv_type xlen] (bv_type 32)

/-- Modelled from the spec: double-word memory array type. -/
def mem_d_type (xlen : Nat) : Ty := Ty.Array [bv_type xlen] (bv_type 64)

/-- Modelled from the spec: `system_model::pc_var`. -/
def pc_var (xlen : Nat) : Var := ⟨constants.PC_VAR, bv_type xlen⟩

end system_model

-- ================================================================
-- src/lib.rs : the three spec-lowering passes over SIR

namespace riscverifier

open sl_ast dwarf

mutual

/-- Embeds `from_dwarf_type` of `src/lib.rs` (byte sizes scaled by
`BYTE_SIZE`, widths cast `as u16`). -/
def from_dwarf_type : DwarfTypeDefn → VType
  | DwarfTypeDefn.Primitive bytes => VType.Bv (bytes * constants.BYTE_SIZE % 2 ^ 16)
  | DwarfTypeDefn.Pointer _ bytes => VType.Bv (bytes * constants.BYTE_SIZE % 2 ^ 16)
  | DwarfTypeDefn.Array in_typ out_typ _ =>
      VType.Array (from_dwarf_type in_typ) (from_dwarf_type out_typ)
  | DwarfTypeDefn.Struct id fields bytes =>
      VType.Struct id (from_dwarf_type_fields fields) (bytes * constants.BYTE_SIZE)

/-- Field-list part of `from_dwarf_type`. -/
def from_dwarf_type_fields :
    List (String × DwarfTypeDefn × Nat) → List (String × VType)
  | [] => []
  | (n, t, _) :: r => (n, from_dwarf_type t) :: from_dwarf_type_fields r

end

/-- Embeds `is_global` of `src/lib.rs` restricted to identifiers, the only
shape on which the rename pass invokes it. -/
def is_global_ident (d : DwarfCtx) (name : String) : Bool :=
  (d.global_var name).isSome

-- ----------------------------------------------------------------
-- Pass 1: VExprTypeInference

/-- Type map carried by the type-inference pass: `HashMap<String, VType>`
embedded as a prepend-on-insert association list. -/
def TypMap : Type := List (String × VType)

/-- Embeds the identifier case of `VExprTypeInference::rewrite_vexpr_ident`:
system variables, then formal arguments (which overwrite), then bound
variables, then globals; globals of primitive type are wrapped in `Deref`;
unresolvable identifiers are returned unchanged (the struct-field
sub-identifier policy).  The outer `Option` is panic propagation from
`VType::from_ast_type`; the system types it is applied to never panic. -/
def pass1_rewrite_ident (d : DwarfCtx) (fname : String) (tm : TypMap)
    (var_id : String) (typ0 : VType) : Option VExpr := do
  let xlen := d.xlen
  let sys_opt : Option VType ←
    if var_id = constants.PC_VAR then
      (VType.from_ast_type (system_model.pc_type xlen)).map some
    else if var_id = constants.RETURNED_FLAG then
      (VType.from_ast_type system_model.returned_type).map some
    else if var_id = constants.PRIV_VAR then
      (VType.from_ast_type system_model.priv_type).map some
    else if var_id = constants.MEM_VAR_B then
      (VType.from_ast_type (system_model.mem_b_type xlen)).map some
    else if var_id = constants.MEM_VAR_H then
      (VType.from_ast_type (system_model.mem_h_type xlen)).map some
    else if var_id = constants.MEM_VAR_W then
      (VType.from_ast_type (system_model.mem_w_type xlen)).map some
    else if var_id = constants.MEM_VAR_D then
      (VType.from_ast_type (system_model.mem_d_type xlen)).map some
    else if var_id = constants.A0 ∨ var_id = constants.SP ∨ var_id = constants.RA then
      (VType.from_ast_type (system_model.bv_type xlen)).map some
    else some none
  let formal_opt : Option VType :=
    match d.func_sig fname with
    | some fs =>
        match fs.args.find? (fun fa => fa.name = var_id) with
        | some fa => some (from_dwarf_type fa.typ_defn)
        | none => sys_opt
    | none => sys_opt
  let typ_opt := formal_opt.orElse (fun _ => alistGet tm var_id)
  match typ_opt with
  | some _ =>
      -- the non-global branch: formal arguments all get xlen bit width
      some (VExpr.Ident var_id (VType.Bv (xlen % 2 ^ 16)))
  | none =>
      match d.global_var_type var_id with
      | none => some (VExpr.Ident var_id typ0)   -- unresolved: left untouched
      | some dt =>
          let t := from_dwarf_type dt
          match t with
          | VType.Bv _ => some (VExpr.OpApp ValueOp.Deref [VExpr.Ident var_id t] t)
          | _ => some (VExpr.Ident var_id t)

/-- Embeds `VExprTypeInference::rewrite_vexpr_opapp`: infer the operator
type, then insert dereferences for primitive struct-field selects and
primitive array-element accesses. -/
def pass1_rewrite_opapp (op : ValueOp) (exprs : List VExpr) : Option VExpr := do
  let rw_typ ← VType.infer_op_type op exprs
  match op with
  | ValueOp.GetField => do
      let e0 ← exprs.head?
      let e1 ← exprs.get? 1
      let field_name ← e1.get_ident_name
      let field_type ←
        match e0.typ with
        | VType.Struct _ fields _ => alistGet fields field_name
        | _ => none
      let field_ident := VExpr.Ident field_name field_type
      let select_opapp := VExpr.OpApp op [e0, field_ident] rw_typ
      match field_type with
      | VType.Bv _ => some (VExpr.OpApp ValueOp.Deref [select_opapp] field_type)
      | _ => some select_opapp
  | ValueOp.ArrayIndex => do
      let e0 ← exprs.head?
      match e0.typ with
      | VType.Array _ out_type =>
          match out_type with
          | VType.Bv _ =>
              some (VExpr.OpApp ValueOp.Deref [VExpr.OpApp op exprs rw_typ] out_type)
          | _ => some (VExpr.OpApp op exprs rw_typ)
      | _ => none
  | _ => some (VExpr.OpApp op exprs rw_typ)

mutual

/-- Embeds `ASTRewriter::visit_vexpr` as instantiated by
`VExprTypeInference`: children first, then the overridden rewrite hooks.
The `FuncApp` hook re-visits the (already visited) arguments, as the
override in the source does; that re-visit is not structurally decreasing,
so a `fuel` bound is threaded through — it decreases only at that re-visit
and never fails when it is at least the `FuncApp`-nesting depth of the
input (the pass never creates `FuncApp` nodes), so with sufficient fuel
this is exactly the source's traversal. -/
def pass1_visit_vexpr (d : DwarfCtx) (fname : String) (tm : TypMap) :
    Nat → VExpr → Option VExpr
  | _, VExpr.Bv v t => some (VExpr.Bv v t)
  | _, VExpr.Int v t => some (VExpr.Int v t)
  | _, VExpr.Bool b t => some (VExpr.Bool b t)
  | _, VExpr.Ident n t => pass1_rewrite_ident d fname tm n t
  | fuel, VExpr.OpApp op exprs t => do
      let rw ← pass1_visit_vexprs d fname tm fuel exprs
      let _ := t
      pass1_rewrite_opapp op rw
  | 0, VExpr.FuncApp _ _ _ => none
  | fuel + 1, VExpr.FuncApp fid exprs t => do
      let rw1 ← pass1_visit_vexprs d fname tm (fuel + 1) exprs
      let rw2 ← pass1_visit_vexprs d fname tm fuel rw1
      let _ := t
      let rw_typ ← VType.infer_func_app_type fid rw2
      some (VExpr.FuncApp fid rw2 rw_typ)
  termination_by fuel e => (fuel, sizeOf e)

/-- List version of `pass1_visit_vexpr` (embeds `visit_vexprs`). -/
def pass1_visit_vexprs (d : DwarfCtx) (fname : String) (tm : TypMap) :
    Nat → List VExpr → Option (List VExpr)
  | _, [] => some []
  | fuel, e :: es => do
      let e' ← pass1_visit_vexpr d fname tm fuel e
      let es' ← pass1_visit_vexprs d fname tm fuel es
      some (e' :: es')
  termination_by fuel es => (fuel, sizeOf es)

end

/-- Embeds `VExprTypeInference::rewrite_bexpr_boolop`: a quantifier records
its bound variable's name and type in the type map (insert = prepend). -/
def pass1_boolop_update (bop : BoolOp) (tm : TypMap) : Option TypMap :=
  match bop with
  | BoolOp.Forall v _ => do
      let n ← v.get_ident_name
      some ((n, v.typ) :: tm)
  | BoolOp.Exists v _ => do
      let n ← v.get_ident_name
      some ((n, v.typ) :: tm)
  | _ => some tm

mutual

/-- Embeds `ASTRewriter::visit_bexpr` as instantiated by
`VExprTypeInference`, threading the mutable type map: the `BoolOp` hook
runs before the subexpressions are visited, and map updates persist across
siblings.  The fuel is handed unchanged to the value-expression visitor. -/
def pass1_visit_bexpr (d : DwarfCtx) (fname : String) (fuel : Nat) (tm : TypMap) :
    BExpr → Option (BExpr × TypMap)
  | BExpr.Bool b => some (BExpr.Bool b, tm)
  | BExpr.BOpApp bop exprs => do
      let tm1 ← pass1_boolop_update bop tm
      let (rw, tm2) ← pass1_visit_bexprs d fname fuel tm1 exprs
      some (BExpr.BOpApp bop rw, tm2)
  | BExpr.COpApp cop vexprs => do
      let rw ← pass1_visit_vexprs d fname tm fuel vexprs
      some (BExpr.COpApp cop rw, tm)

/-- List version of `pass1_visit_bexpr` (embeds `visit_bexprs`), threading
the type map left to right. -/
def pass1_visit_bexprs (d : DwarfCtx) (fname : String) (fuel : Nat) (tm : TypMap) :
    List BExpr → Option (List BExpr × TypMap)
  | [] => some ([], tm)
  | e :: es => do
      let (e', tm1) ← pass1_visit_bexpr d fname fuel tm e
      let (es', tm2) ← pass1_visit_bexprs d fname fuel tm1 es
      some (e' :: es', tm2)

end

mutual

/-- Structural size of a `VExpr`, used as a sufficient fuel bound for the
type-inference visitor (it dominates the `FuncApp` nesting depth). -/
def vexpr_size : VExpr → Nat
  | VExpr.Bv _ _ | VExpr.Int _ _ | VExpr.Bool _ _ | VExpr.Ident _ _ => 1
  | VExpr.OpApp _ args _ => 1 + vexpr_size_list args
  | VExpr.FuncApp _ args _ => 1 + vexpr_size_list args

/-- List version of `vexpr_size`. -/
def vexpr_size_list : List VExpr → Nat
  | [] => 0
  | e :: es => vexpr_size e + vexpr_size_list es

end

mutual

/-- Structural size of a `BExpr`, used as a sufficient fuel bound. -/
def bexpr_size : BExpr → Nat
  | BExpr.Bool _ => 1
  | BExpr.BOpApp _ args => 1 + bexpr_size_list args
  | BExpr.COpApp _ vargs => 1 + vexpr_size_list vargs

/-- List version of `bexpr_size`. -/
def bexpr_size_list : List BExpr → Nat
  | [] => 0
  | e :: es => bexpr_size e + bexpr_size_list es

end

/-- Pass 1 as run by `sl_bexpr_rewrite_passes`: visit with a fresh, empty
type map (fuelled by the input's size, which bounds its `FuncApp` depth). -/
def run_pass1 (d : DwarfCtx) (fname : String) (b : BExpr) : Option BExpr :=
  (pass1_visit_bexpr d fname (bexpr_size b) [] b).map (·.1)

-- ----------------------------------------------------------------
-- Pass 2: RenameGlobals

/-- Embeds `RenameGlobals::rewrite_vexpr_ident`: identifiers naming a DWARF
global become bitvector literals carrying the global's memory address. -/
def pass2_rewrite_ident (d : DwarfCtx) (name : String) (typ : VType) : VExpr :=
  match d.global_var name with
  | some gv => VExpr.Bv gv.memory_addr typ
  | none => VExpr.Ident name typ

mutual

/-- Embeds `visit_vexpr` as instantiated by `RenameGlobals` (only the
identifier hook is overridden). -/
def pass2_visit_vexpr (d : DwarfCtx) : VExpr → VExpr
  | VExpr.Bv v t => VExpr.Bv v t
  | VExpr.Int v t => VExpr.Int v t
  | VExpr.Bool b t => VExpr.Bool b t
  | VExpr.Ident n t => pass2_rewrite_ident d n t
  | VExpr.OpApp op exprs t => VExpr.OpApp op (pass2_visit_vexprs d exprs) t
  | VExpr.FuncApp fid exprs t => VExpr.FuncApp fid (pass2_visit_vexprs d exprs) t

/-- List version of `pass2_visit_vexpr`. -/
def pass2_visit_vexprs (d : DwarfCtx) : List VExpr → List VExpr
  | [] => []
  | e :: es => pass2_visit_vexpr d e :: pass2_visit_vexprs d es

end

mutual

/-- Embeds `visit_bexpr` as instantiated by `RenameGlobals`. -/
def pass2_visit_bexpr (d : DwarfCtx) : BExpr → BExpr
  | BExpr.Bool b => BExpr.Bool b
  | BExpr.BOpApp bop exprs => BExpr.BOpApp bop (pass2_visit_bexprs d exprs)
  | BExpr.COpApp cop vexprs => BExpr.COpApp cop (pass2_visit_vexprs d vexprs)

/-- List version of `pass2_visit_bexpr`. -/
def pass2_visit_bexprs (d : DwarfCtx) : List BExpr → List BExpr
  | [] => []
  | e :: es => pass2_visit_bexpr d e :: pass2_visit_bexprs d es

end

-- ----------------------------------------------------------------
-- Pass 3: ConstantFolder

mutual

/-- Embeds `ConstantFolder::constant_fold` of `src/lib.rs`.  Operands are
folded recursively; if all present operands are literals the operator is
evaluated over `u64` values (`Add`/`Sub`/`Mul` wrap, `Div` panics on zero,
the shifts follow the source's choice of logical vs arithmetic), `Slice`
masks with `helpers::mask` and retypes to the sum of the operand widths,
`ArrayIndex` computes `base + elem_bytes * index`, and a `Deref` of a
literal address becomes the `mem_access_<addr>` identifier. -/
def constant_fold (d : DwarfCtx) : VExpr → Option VExpr
  | VExpr.OpApp value_op operands typ => do
      let rw_operands ← constant_fold_list d operands
      let oper1 ← rw_operands.head?
      let oper2_opt := rw_operands.get? 1
      if ¬(oper1.is_lit ∧ (oper2_opt.map (·.is_lit)).getD true) then
        some (VExpr.OpApp value_op rw_operands typ)
      else do
        let oper1_val ← oper1.get_lit_value
        let oper2_val_opt : Option Nat ←
          match oper2_opt with
          | none => pure none
          | some oper => do
              let v ← oper.get_lit_value
              pure (some v)
        match value_op with
        | ValueOp.Add => do
            let o2 ← oper2_val_opt
            some (VExpr.Bv (u64_add oper1_val o2) oper1.typ)
        | ValueOp.Sub => do
            let o2 ← oper2_val_opt
            some (VExpr.Bv (u64_sub oper1_val o2) oper1.typ)
        | ValueOp.Div => do
            let o2 ← oper2_val_opt
            if o2 = 0 then none else some (VExpr.Bv (oper1_val / o2) oper1.typ)
        | ValueOp.Mul => do
            let o2 ← oper2_val_opt
            some (VExpr.Bv (u64_mul oper1_val o2) oper1.typ)
        | ValueOp.BvXor => do
            let o2 ← oper2_val_opt
            some (VExpr.Bv (oper1_val ^^^ o2) oper1.typ)
        | ValueOp.BvOr => do
            let o2 ← oper2_val_opt
            some (VExpr.Bv (oper1_val ||| o2) oper1.typ)
        | ValueOp.BvAnd => do
            let o2 ← oper2_val_opt
            some (VExpr.Bv (oper1_val &&& o2) oper1.typ)
        | ValueOp.RightShift => do
            let o2 ← oper2_val_opt
            some (VExpr.Bv (u64_ashr oper1_val o2) oper1.typ)
        | ValueOp.URightShift => do
            let o2 ← oper2_val_opt
            some (VExpr.Bv (u64_lshr oper1_val o2) oper1.typ)
        | ValueOp.LeftShift => do
            let o2 ← oper2_val_opt
            some (VExpr.Bv (u64_shl oper1_val o2) oper1.typ)
        | ValueOp.Slice lo hi => do
            let w1 ← oper1.typ.get_bv_width
            let oper2 ← oper2_opt
            let w2 ← oper2.typ.get_bv_width
            some (VExpr.Bv (oper1_val &&& helpers.mask hi lo) (VType.Bv (w1 + w2)))
        | ValueOp.ArrayIndex => do
            let sz ← oper1.typ.get_array_out_type_size
            let out_typ_bytes := sz / constants.BYTE_SIZE
            let index ← oper2_val_opt
            let base_addr ← oper1.get_lit_value
            let out ← oper1.typ.get_array_out_type
            some (VExpr.Bv (u64_add base_addr (u64_mul out_typ_bytes index)) out)
        | ValueOp.Deref =>
            if oper1.is_lit then do
              let v ← oper1.get_lit_value
              some (VExpr.Ident (helpers.abs_access_name v) typ)
            else
              some (VExpr.OpApp value_op rw_operands typ)
        | ValueOp.Concat => some (VExpr.OpApp value_op rw_operands typ)
        | ValueOp.GetField => some (VExpr.OpApp value_op rw_operands typ)
  | e => some e

/-- List version of `constant_fold`. -/
def constant_fold_list (d : DwarfCtx) : List VExpr → Option (List VExpr)
  | [] => some []
  | e :: es => do
      let e' ← constant_fold d e
      let es' ← constant_fold_list d es
      some (e' :: es')

end

mutual

/-- Embeds `visit_vexpr` as instantiated by `ConstantFolder` (which
overrides `rewrite_vexpr` with `constant_fold`): children are visited and
rebuilt, then the whole node is folded. -/
def pass3_visit_vexpr (d : DwarfCtx) : VExpr → Option VExpr
  | VExpr.OpApp op exprs t => do
      let rw ← pass3_visit_vexprs d exprs
      constant_fold d (VExpr.OpApp op rw t)
  | VExpr.FuncApp fid exprs t => do
      let rw ← pass3_visit_vexprs d exprs
      constant_fold d (VExpr.FuncApp fid rw t)
  | e => constant_fold d e

/-- List version of `pass3_visit_vexpr`. -/
def pass3_visit_vexprs (d : DwarfCtx) : List VExpr → Option (List VExpr)
  | [] => some []
  | e :: es => do
      let e' ← pass3_visit_vexpr d e
      let es' ← pass3_visit_vexprs d es
      some (e' :: es')

end

mutual

/-- Embeds `visit_bexpr` as instantiated by `ConstantFolder`. -/
def pass3_visit_bexpr (d : DwarfCtx) : BExpr → Option BExpr
  | BExpr.Bool b => some (BExpr.Bool b)
  | BExpr.BOpApp bop exprs => do
      let rw ← pass3_visit_bexprs d exprs
      some (BExpr.BOpApp bop rw)
  | BExpr.COpApp cop vexprs => do
      let rw ← pass3_visit_vexprs d vexprs
      some (BExpr.COpApp cop rw)

/-- List version of `pass3_visit_bexpr`. -/
def pass3_visit_bexprs (d : DwarfCtx) : List BExpr → Option (List BExpr)
  | [] => some []
  | e :: es => do
      let e' ← pass3_visit_bexpr d e
      let es' ← pass3_visit_bexprs d es
      some (e' :: es')

end

end riscverifier


-- ================================================================
-- asts/src/veriv_ast.rs (continued): FuncSig / FuncModel / Model

namespace veriv_ast

/-- Embeds `veriv_ast::FuncSig` (the `mod_set` hash set becomes a
`Finset`). -/
structure FuncSig : Type where
  name : String
  entry_addr : Nat
  arg_decls : List Expr
  ret_decl : Option Ty
  requires : List sl_ast.Spec
  ensures : List sl_ast.Spec
  tracked : List sl_ast.Spec
  mod_set : Finset String

/-- Embeds `veriv_ast::FuncModel`. -/
structure FuncModel : Type where
  sig : FuncSig
  body : Stmt
  inline : Bool

/-- Embeds `FuncModel::new` together with the assertion of `FuncSig::new`:
the body must be a block and every declared argument a variable (panics
become `none`); absent optional lists default to empty. -/
def FuncModel.new (name : String) (entry_addr : Nat) (arg_decls : List Expr)
    (ret_decl : Option Ty) (requires : Option (List sl_ast.Spec))
    (ensures : Option (List sl_ast.Spec)) (tracked : Option (List sl_ast.Spec))
    (mod_set : Option (Finset String)) (body : Stmt) (inline : Bool) :
    Option FuncModel :=
  if body.is_blk ∧ arg_decls.all Expr.is_var then
    some
      { sig :=
          { name, entry_addr, arg_decls, ret_decl
            requires := requires.getD []
            ensures := ensures.getD []
            tracked := tracked.getD []
            mod_set := mod_set.getD ∅ }
        body, inline }
  else none

/-- Embeds `veriv_ast::Model` (the variable hash set is carried as a list
in its insertion order; only `func_models` matters to the claims below). -/
structure Model : Type where
  name : String
  vars : List Var
  func_models : List FuncModel

/-- Embeds `Model::new`. -/
def Model.new (name : String) : Model := ⟨name, [], []⟩

/-- Embeds `Model::add_func_model`: push the model only when no existing
entry carries the same signature name (first wins). -/
def Model.add_func_model (m : Model) (fm : FuncModel) : Model :=
  if (m.func_models.find? (fun fm_ => fm_.sig.name = fm.sig.name)).isNone then
    { m with func_models := m.func_models ++ [fm] }
  else m

/-- Embeds `Model::add_func_models`. -/
def Model.add_func_models (m : Model) (fms : List FuncModel) : Model :=
  fms.foldl Model.add_func_model m

end veriv_ast

-- ================================================================
-- src/translator.rs

namespace translator

open veriv_ast sl_ast dwarf

/-- Lookup in a `HashMap<u64, _>` embedded as an association list. -/
def lookupNat {α : Type} (l : List (Nat × α)) (k : Nat) : Option α :=
  (l.find? (fun p => p.1 = k)).map (·.2)

/-- Modelled from the spec: the view of a `BasicBlock` the translator
reads through the external CFG provider — whether its entry instruction is
a labelled function entry, and that function's name. -/
structure BasicBlockInfo : Type where
  is_label_entry : Bool
  function_name : String

/-- Modelled from the spec: the view of a `CfgNode` the translator reads —
the entry address and label flag, and the exit instruction's mnemonic,
immediate and successor addresses. -/
structure CfgNode : Type where
  entry_addr : Nat
  entry_is_label : Bool
  exit_op : String
  exit_imm : Option RInt
  exit_succs : List Nat

/-- Modelled from the spec: a per-function `Cfg` view keyed by basic-block
entry address. -/
structure Cfg : Type where
  entry_addr : Nat
  nodes : List (Nat × CfgNode)

/-- Structured errors corresponding to the translator's panics. -/
inductive TErr : Type where
  | CycleInCFG : List Nat → TErr
  | Missing : String → TErr
  deriving DecidableEq

/-- Decidable equality on `Except`, used to settle concrete translator
results by `decide`. -/
instance {ε α : Type} [DecidableEq ε] [DecidableEq α] : DecidableEq (Except ε α) := fun a b =>
  match a, b with
  | Except.ok x, Except.ok y =>
      if h : x = y then isTrue (by rw [h]) else isFalse (by intro hc; cases hc; exact h rfl)
  | Except.error x, Except.error y =>
      if h : x = y then isTrue (by rw [h]) else isFalse (by intro hc; cases hc; exact h rfl)
  | Except.ok _, Except.error _ => isFalse (by intro hc; cases hc)
  | Except.error _, Except.ok _ => isFalse (by intro hc; cases hc)

/-- Lifts an embedded panic (`Option`) into the error monad. -/
def liftO {α : Type} (o : Option α) (msg : String) : Except TErr α :=
  match o with
  | some a => Except.ok a
  | none => Except.error (TErr.Missing msg)

/-- Embeds `Translator::get_func_at` (the missing-block `expect` is an
error; a non-label entry yields `none`). -/
def get_func_at (bbs : List (Nat × BasicBlockInfo)) (addr : Nat) :
    Except TErr (Option String) :=
  match lookupNat bbs addr with
  | none => Except.error (TErr.Missing "Could not find basic block")
  | some bb =>
      Except.ok (if bb.is_label_entry then some bb.function_name else none)

/-- Embeds `Translator::bb_proc_name` (`format!("bb_{:#x?}", addr)`, the
alternate hex format `0x…` with lowercase digits). -/
def bb_proc_name (addr : Nat) : String :=
  "bb_0x" ++ String.mk (Nat.toDigits 16 addr)

mutual

/-- Embeds `Translator::to_ir_type` (struct fields collect into a
`BTreeMap`, i.e. are sorted by field name). -/
def to_ir_type : DwarfTypeDefn → Ty
  | DwarfTypeDefn.Primitive bytes => Ty.Bv (bytes * constants.BYTE_SIZE)
  | DwarfTypeDefn.Pointer _ bytes => Ty.Bv (bytes * constants.BYTE_SIZE)
  | DwarfTypeDefn.Array in_typ out_typ _ =>
      Ty.Array [to_ir_type in_typ] (to_ir_type out_typ)
  | DwarfTypeDefn.Struct id fields bytes =>
      Ty.Struct id
        (sortByB (fun a b => strLeB a.1 b.1) (to_ir_type_fields fields))
        (bytes * constants.BYTE_SIZE)

/-- Field-list part of `to_ir_type`. -/
def to_ir_type_fields :
    List (String × DwarfTypeDefn × Nat) → List (String × Ty)
  | [] => []
  | (n, t, _) :: r => (n, to_ir_type t) :: to_ir_type_fields r

end

/-- Embeds `Translator::func_args`: the DWARF formals as typed variable
expressions (absent signatures yield the empty list). -/
def func_args (d : DwarfCtx) (func_name : String) : List Expr :=
  match d.func_sig func_name with
  | some fs => fs.args.map (fun x => Expr.var x.name (to_ir_type x.typ_defn))
  | none => []

/-- Embeds `Translator::guarded_call`: the dispatch guard
`pc == entry && returned == 0` around a block. -/
def guarded_call (xlen : Nat) (entry : Nat) (blk : Stmt) : Option Stmt := do
  let if_pc_guard ← Expr.op_app (Op.Comp CompOp.Equality)
    [Expr.Var (system_model.pc_var xlen) (system_model.bv_type xlen),
     Expr.bv_lit entry xlen]
  let if_returned_guard ← Expr.op_app (Op.Comp CompOp.Equality)
    [Expr.var constants.RETURNED_FLAG (system_model.bv_type 1),
     Expr.bv_lit 0 1]
  let if_guard ← Expr.op_app (Op.Bool BoolOp.Conj) [if_pc_guard, if_returned_guard]
  some (Stmt.if_then_else if_guard blk none)

mutual

/-- Embeds `Translator::infer_mod_set`: `pc` and the returned flag are
always included; assignments add the base name of each LHS (a variable, or
the array variable of an `ArrayIndex` — anything else is an assertion
failure); calls union the callee's memoized modifies set and the LHS
variables; conditionals and blocks recurse. -/
def infer_mod_set (msm : List (String × Finset String)) : Stmt → Option (Finset String)
  | Stmt.FuncCall fname lhs _ => do
      let base : Finset String := {constants.PC_VAR, constants.RETURNED_FLAG}
      let with_callee :=
        match alistGet msm fname with
        | some fc_ms => base ∪ fc_ms
        | none => base
      let lhs_names ← lhs.mapM Expr.get_var_name
      some (with_callee ∪ lhs_names.toFinset)
  | Stmt.Assign lhs _ => do
      let names ← lhs.mapM (fun e =>
        match e with
        | Expr.Var v _ => some v.name
        | Expr.OpApp Op.ArrayIndex operands _ =>
            match operands.head? with
            | some (Expr.Var v _) => some v.name
            | _ => none
        | _ => none)
      some (({constants.PC_VAR, constants.RETURNED_FLAG} : Finset String) ∪ names.toFinset)
  | Stmt.IfThenElse _ then_stmt none => do
      let t ← infer_mod_set msm then_stmt
      some (({constants.PC_VAR, constants.RETURNED_FLAG} : Finset String) ∪ t)
  | Stmt.IfThenElse _ then_stmt (some else_stmt) => do
      let t ← infer_mod_set msm then_stmt
      let e ← infer_mod_set msm else_stmt
      some (({constants.PC_VAR, constants.RETURNED_FLAG} : Finset String) ∪ t ∪ e)
  | Stmt.Block stmts => do
      let sets ← infer_mod_set_list msm stmts
      some (sets.foldl (· ∪ ·) ({constants.PC_VAR, constants.RETURNED_FLAG} : Finset String))
  | _ => some ({constants.PC_VAR, constants.RETURNED_FLAG} : Finset String)

/-- List version of `infer_mod_set`. -/
def infer_mod_set_list (msm : List (String × Finset String)) :
    List Stmt → Option (List (Finset String))
  | [] => some []
  | s :: r => do
      let m ← infer_mod_set msm s
      let ms ← infer_mod_set_list msm r
      some (m :: ms)

end

/-- Embeds `Translator::mod_set_from_spec_map`: the union of all declared
`Modifies` sets of the named function's specs; `none` exactly when the
function has no spec entry at all. -/
def mod_set_from_spec_map (specs_map : List (String × List Spec)) (func_name : String) :
    Option (Finset String) :=
  match alistGet specs_map func_name with
  | none => none
  | some specs =>
      some (specs.foldl
        (fun acc s =>
          match s with
          | Spec.Modifies hs => acc ∪ hs
          | _ => acc) ∅)

/-- Embeds the modifies-set computation of `Translator::gen_func_model`
(source lines 253–328) for a function whose basic blocks have already been
translated and processed: per-block modifies sets are inferred and recorded
under the block procedure names, their union seeds the function's set, and
then each `jal` callee is examined — a callee that is not ignored is
skipped by the inverted `continue` condition, and for an ignored callee the
code unions the modifies set that the spec map declares for `func_name`
(the caller, as written in the source) when present. -/
def gen_func_mod_set (bbs : List (Nat × BasicBlockInfo)) (ignored : List String)
    (specs_map : List (String × List Spec)) (msm0 : List (String × Finset String))
    (func_name : String) (bb_bodies : List (Nat × Stmt)) (callees : List Nat) :
    Except TErr (Finset String) := do
  let bb_sets ← bb_bodies.mapM (fun p => do
    let ms ← liftO (infer_mod_set msm0 p.2) "infer_mod_set"
    pure (bb_proc_name p.1, ms))
  let msm1 := bb_sets.reverse ++ msm0
  let mod_set := bb_sets.foldl (fun acc p => acc ∪ p.2) ∅
  callees.foldlM (fun mod_set target => do
      let fopt ← get_func_at bbs target
      match fopt with
      | none => pure mod_set
      | some name =>
          if ¬ ignored.contains name then pure mod_set
          else if ignored.contains name then
            match mod_set_from_spec_map specs_map func_name with
            | some ms => pure (mod_set ∪ ms)
            | none => pure mod_set
          else
            match alistGet msm1 name with
            | some callee_ms => pure (mod_set ∪ callee_ms)
            | none => Except.error (TErr.Missing "Unable to find modifies set"))
    mod_set

end translator

-- ================================================================
-- src/translator.rs (continued): topological sort and body synthesis

namespace translator

open veriv_ast sl_ast dwarf

/-- Modelled from the spec: the state of the external `TopologicalSort`
container — the registered node set (`insert` / the endpoints of every
`add_dependency`) and the dependency edge set. -/
structure TS : Type where
  nodes : List Nat
  edges : List (Nat × Nat)

/-- Modelled from the spec: `TopologicalSort::insert` registers a node. -/
def TS.insert (ts : TS) (a : Nat) : TS :=
  if ts.nodes.contains a then ts else { ts with nodes := ts.nodes ++ [a] }

/-- Modelled from the spec: `TopologicalSort::add_dependency prec succ`
registers both endpoints and the edge (duplicate edges are kept once). -/
def TS.add_dep (ts : TS) (a b : Nat) : TS :=
  let ts := (ts.insert a).insert b
  if ts.edges.contains (a, b) then ts else { ts with edges := ts.edges ++ [(a, b)] }

/-- The `ignore` closure of `Translator::topo_sort`: an address is ignored
when it is a function entry whose function is in the ignored set. -/
def topo_ignore (bbs : List (Nat × BasicBlockInfo)) (ignored : List String)
    (addr : Nat) : Except TErr Bool := do
  let fopt ← get_func_at bbs addr
  match fopt with
  | some n => pure (ignored.contains n)
  | none => pure false

mutual

/-- Embeds `Translator::compute_deps`: skip processed nodes, stop at
ignored subgraphs, add a dependency `entry → target` for every successor,
and recurse into targets that are not function-entry labels.  Every call
consumes one unit of fuel so that the recursion is structural; the fuel
handed out by `topo_sort` exceeds the total number of calls, so with that
fuel this is exactly the source's recursion. -/
def compute_deps (bbs : List (Nat × BasicBlockInfo)) (ignored : List String)
    (cfg : Cfg) : Nat → Nat → TS → List Nat → Except TErr (TS × List Nat)
  | 0, _, _, _ => Except.error (TErr.Missing "compute_deps fuel")
  | fuel + 1, curr, ts, processed =>
      if processed.contains curr then Except.ok (ts, processed)
      else
        let processed := curr :: processed
        match lookupNat cfg.nodes curr with
        | none => Except.error (TErr.Missing "Unable to find basic block")
        | some cfg_node => do
            let entry := cfg_node.entry_addr
            let ig ← topo_ignore bbs ignored entry
            if ig then pure (ts, processed)
            else compute_deps_succs bbs ignored cfg fuel entry cfg_node.exit_succs ts processed

/-- Successor-loop part of `compute_deps`. -/
def compute_deps_succs (bbs : List (Nat × BasicBlockInfo)) (ignored : List String)
    (cfg : Cfg) : Nat → Nat → List Nat → TS → List Nat → Except TErr (TS × List Nat)
  | 0, _, _, _, _ => Except.error (TErr.Missing "compute_deps fuel")
  | _ + 1, _, [], ts, processed => Except.ok (ts, processed)
  | fuel + 1, entry, target :: rest, ts, processed => do
      let ts := ts.add_dep entry target
      match lookupNat cfg.nodes target with
      | none => Except.error (TErr.Missing "Unable to find target basic block")
      | some tnode => do
          let st ←
            if tnode.entry_is_label then pure (ts, processed)
            else compute_deps bbs ignored cfg fuel target ts processed
          compute_deps_succs bbs ignored cfg fuel entry rest st.1 st.2

end

/-- Embeds the extraction loop of `Translator::topo_sort` over the
`TopologicalSort` state: `pop_all` yields the remaining nodes that no
remaining node points to, sorted ascending before being appended; an empty
pop with a non-empty remainder is the cycle case (`none`).  Fuel decreases
once per iteration; `remaining.length + 1` suffices because every
successful iteration removes at least one node. -/
def kahn_loop (edges : List (Nat × Nat)) : Nat → List Nat → List Nat → Option (List Nat)
  | 0, _, _ => none
  | fuel + 1, remaining, acc =>
      let ready := sortByB (fun a b => decide (a ≤ b))
        (remaining.filter (fun v => ¬ remaining.any (fun u => (u, v) ∈ edges)))
      if ready.isEmpty then
        if remaining.isEmpty then some acc else none
      else
        kahn_loop edges fuel (remaining.filter (fun v => ¬ ready.contains v)) (acc ++ ready)

/-- Modelled from the spec: the external `Cfg::find_cycle` routine — a
depth-first search from the entry along the recorded dependency edges that
returns the nodes of the first cycle found, innermost first (so that the
translator's report, which reverses it, lists the cycle in forward
order). -/
def find_cycle (edges : List (Nat × Nat)) : Nat → List Nat → Nat → Option (List Nat)
  | 0, _, _ => none
  | fuel + 1, stack, curr =>
      let stack' := curr :: stack
      let succs := sortByB (fun a b => decide (a ≤ b))
        ((edges.filter (fun e => e.1 = curr)).map (·.2))
      succs.findSome? (fun v =>
        if stack'.contains v then some [curr]
        else (find_cycle edges fuel stack' v).map (fun l => l ++ [curr]))

/-- Fuel bound handed to `compute_deps`: more than one unit per node and
per edge of the CFG. -/
def deps_fuel (cfg : Cfg) : Nat :=
  (cfg.nodes.length + (cfg.nodes.map (fun p => p.2.exit_succs.length)).sum + 2) *
    (cfg.nodes.length + (cfg.nodes.map (fun p => p.2.exit_succs.length)).sum + 2)

/-- Embeds `Translator::topo_sort`: seed the sorter with the entry address,
record all dependencies, extract in dependency order (ties ascending), and
on exhaustion without emptying report the cycle found by `find_cycle`,
reversed exactly as the panic message prints it. -/
def topo_sort (bbs : List (Nat × BasicBlockInfo)) (ignored : List String)
    (cfg : Cfg) : Except TErr (List Nat) := do
  let ts0 := TS.insert ⟨[], []⟩ cfg.entry_addr
  let (ts, _) ← compute_deps bbs ignored cfg (deps_fuel cfg) cfg.entry_addr ts0 []
  match kahn_loop ts.edges (ts.nodes.length + 1) ts.nodes [] with
  | some sorted => pure sorted
  | none =>
      match find_cycle ts.edges (ts.nodes.length + 1) [] cfg.entry_addr with
      | some cycle => Except.error (TErr.CycleInCFG cycle.reverse)
      | none => Except.error (TErr.Missing "Should have found a cycle")

/-- Embeds `Translator::cfg_to_symbolic_blk`: for every block in
topological order (skipping foreign function-entry blocks) emit a call to
its basic-block procedure guarded by `pc == entry && returned == 0`; when
the block exits through a `jal` whose target is a function-entry label,
additionally emit a guarded call to that function (arguments `a0…`, typed
from DWARF) followed by `returned = 0`; finally append `returned = 1`. -/
def cfg_to_symbolic_blk (xlen : Nat) (bbs : List (Nat × BasicBlockInfo))
    (d : DwarfCtx) (ignored : List String) (func_entry_addr : Nat) (cfg : Cfg) :
    Except TErr Stmt := do
  let sorted ← topo_sort bbs ignored cfg
  let stmts_vec ← sorted.foldlM (fun (acc : List Stmt) bb_entry => do
      let cfg_node ← liftO (lookupNat cfg.nodes bb_entry) "Unable to find CFG node"
      if cfg_node.entry_is_label ∧ bb_entry ≠ func_entry_addr then pure acc
      else do
        let bb_call_stmt := Stmt.func_call (bb_proc_name bb_entry) [] []
        let then_blk_stmt := Stmt.Block [bb_call_stmt]
        let gcall ← liftO (guarded_call xlen bb_entry then_blk_stmt) "guarded_call"
        let acc := acc ++ [gcall]
        if cfg_node.exit_op = constants.JAL then do
          let imm ← liftO cfg_node.exit_imm "JAL is missing a target address"
          let target_addr := of_i64 imm
          let target_cfg_node ← liftO (lookupNat cfg.nodes target_addr)
            "Unable to find CFG node"
          if target_cfg_node.entry_is_label then do
            let fopt ← get_func_at bbs target_addr
            let f_name ← liftO fopt "Could not find function entry"
            let f_args := (func_args d f_name).enum.map
              (fun p => Expr.var ("a" ++ toString p.1) p.2.typ)
            let f_call_stmt := Stmt.func_call f_name [] f_args
            let reset := Stmt.assign
              [Expr.var constants.RETURNED_FLAG (system_model.bv_type 1)]
              [Expr.bv_lit 0 1]
            let then_blk_stmt := Stmt.Block [f_call_stmt, reset]
            let gcall2 ← liftO (guarded_call xlen target_addr then_blk_stmt) "guarded_call"
            pure (acc ++ [gcall2])
          else pure acc
        else pure acc)
    []
  pure (Stmt.Block (stmts_vec ++
    [Stmt.assign [Expr.var constants.RETURNED_FLAG (system_model.bv_type 1)]
      [Expr.bv_lit 1 1]]))

end translator

-- ================================================================
-- src/translator.rs (continued): per-block constant propagation folding

namespace ConstantPropagator

open veriv_ast

mutual

/-- Embeds `ConstantPropagator::constant_fold` of `src/translator.rs`:
operands are folded recursively, and when all present operands are
literals the operator is evaluated — comparisons (with `as i64` casts for
the signed orders), bitvector arithmetic over `u64` with the result typed
at operand 0's literal width, the three shifts exactly as written in the
source (`RightShift` via `((x as i64) >> s) as u64`, `ARightShift` via the
`u64` logical shift), `Slice{l,r}` masked with `helpers::mask l r` at
width `l - r + 1`, and the boolean connectives over the 0/1 encodings. -/
def constant_fold : Expr → Option Expr
  | Expr.OpApp op operands typ => do
      let rw_operands ← constant_fold_list operands
      let oper1 ← rw_operands.head?
      let oper2_opt := rw_operands.get? 1
      if ¬(oper1.is_lit ∧ (oper2_opt.map (·.is_lit)).getD true) then
        some (Expr.OpApp op rw_operands typ)
      else do
        let oper1_val ← oper1.get_lit_value
        let oper2_val_opt : Option Nat ←
          match oper2_opt with
          | none => pure none
          | some oper => do
              let v ← oper.get_lit_value
              pure (some v)
        match op with
        | Op.Comp cop => do
            let oper2_val ← oper2_val_opt
            match cop with
            | CompOp.Equality => some (Expr.bool_lit (oper1_val = oper2_val))
            | CompOp.Inequality => some (Expr.bool_lit (oper1_val ≠ oper2_val))
            | CompOp.Lt => some (Expr.bool_lit (to_i64 oper1_val < to_i64 oper2_val))
            | CompOp.Le => some (Expr.bool_lit (to_i64 oper1_val ≤ to_i64 oper2_val))
            | CompOp.Gt => some (Expr.bool_lit (to_i64 oper2_val < to_i64 oper1_val))
            | CompOp.Ge => some (Expr.bool_lit (to_i64 oper2_val ≤ to_i64 oper1_val))
            | CompOp.Ltu => some (Expr.bool_lit (oper1_val < oper2_val))
            | CompOp.Leu => some (Expr.bool_lit (oper1_val ≤ oper2_val))
            | CompOp.Gtu => some (Expr.bool_lit (oper2_val < oper1_val))
            | CompOp.Geu => some (Expr.bool_lit (oper2_val ≤ oper1_val))
        | Op.Bv bvop =>
            match bvop with
            | BVOp.Add => do
                let o2 ← oper2_val_opt
                let w ← oper1.get_expect_bv_width
                some (Expr.bv_lit (u64_add oper1_val o2) w)
            | BVOp.Sub => do
                let o2 ← oper2_val_opt
                let w ← oper1.get_expect_bv_width
                some (Expr.bv_lit (u64_sub oper1_val o2) w)
            | BVOp.Mul => do
                let o2 ← oper2_val_opt
                let w ← oper1.get_expect_bv_width
                some (Expr.bv_lit (u64_mul oper1_val o2) w)
            | BVOp.And => do
                let o2 ← oper2_val_opt
                let w ← oper1.get_expect_bv_width
                some (Expr.bv_lit (oper1_val &&& o2) w)
            | BVOp.Or => do
                let o2 ← oper2_val_opt
                let w ← oper1.get_expect_bv_width
                some (Expr.bv_lit (oper1_val ||| o2) w)
            | BVOp.Xor => do
                let o2 ← oper2_val_opt
                let w ← oper1.get_expect_bv_width
                some (Expr.bv_lit (oper1_val ^^^ o2) w)
            | BVOp.SignExt => do
                let o2 ← oper2_val_opt
                let w ← oper1.get_expect_bv_width
                some (Expr.bv_lit oper1_val (u64_add w o2))
            | BVOp.ZeroExt => do
                let o2 ← oper2_val_opt
                let w ← oper1.get_expect_bv_width
                some (Expr.bv_lit oper1_val (u64_add w o2))
            | BVOp.LeftShift => do
                let o2 ← oper2_val_opt
                let w ← oper1.get_expect_bv_width
                some (Expr.bv_lit (u64_shl oper1_val o2) w)
            | BVOp.RightShift => do
                let o2 ← oper2_val_opt
                let w ← oper1.get_expect_bv_width
                some (Expr.bv_lit (u64_ashr oper1_val o2) w)
            | BVOp.ARightShift => do
                let o2 ← oper2_val_opt
                let w ← oper1.get_expect_bv_width
                some (Expr.bv_lit (u64_lshr oper1_val o2) w)
            | BVOp.Concat => some (Expr.OpApp (Op.Bv BVOp.Concat) rw_operands typ)
            | BVOp.Slice l r =>
                some (Expr.bv_lit (oper1_val &&& helpers.mask l r) (u64_add (u64_sub l r) 1))
        | Op.Bool bop =>
            match bop with
            | BoolOp.Conj => do
                let o2 ← oper2_val_opt
                some (Expr.bool_lit (u64_add oper1_val o2 = 2))
            | BoolOp.Disj => do
                let o2 ← oper2_val_opt
                some (Expr.bool_lit (0 < u64_add oper1_val o2))
            | BoolOp.Iff => do
                let o2 ← oper2_val_opt
                some (Expr.bool_lit (oper1_val = o2))
            | BoolOp.Impl => do
                let o2 ← oper2_val_opt
                some (Expr.bool_lit (oper1_val ≤ o2))
            | BoolOp.Neg => some (Expr.bool_lit (¬ oper1_val = 1))
        | _ => some (Expr.OpApp op rw_operands typ)
  | e => some e

/-- List version of `ConstantPropagator.constant_fold`. -/
def constant_fold_list : List Expr → Option (List Expr)
  | [] => some []
  | e :: es => do
      let e' ← constant_fold e
      let es' ← constant_fold_list es
      some (e' :: es')

end

end ConstantPropagator

-- ================================================================
-- src/src/utils.rs : string helpers used by the emitter

namespace uclid_utils

/-- Embeds the padding `format!("{:indent$}", " ")`: the single space padded
to at least `indent` characters. -/
def pad (indent : Nat) : String := String.mk (List.replicate (max indent 1) ' ')

/-- Replacement of every newline character by a replacement string, the
only use of `str::replace` in `indent_text`. -/
def replace_newlines (rep : List Char) : List Char → List Char
  | [] => []
  | c :: rest =>
      if c = '\n' then rep ++ replace_newlines rep rest
      else c :: replace_newlines rep rest

/-- Embeds `utils::indent_text`. -/
def indent_text (s : String) (indent : Nat) : String :=
  pad indent ++ String.mk (replace_newlines ("\n" ++ pad indent).data s.data)

/-- Embeds `utils::global_var_ptr_name` of `src/src/utils.rs`. -/
def global_var_ptr_name (name : String) : String := "global_var_" ++ name

/-- Embeds `utils::global_func_addr_name` of `src/src/utils.rs`. -/
def global_func_addr_name (name : String) : String := "global_func_" ++ name

/-- Embeds `utils::BYTE_SIZE` of `src/src/utils.rs`. -/
def BYTE_SIZE : Nat := 8

end uclid_utils

-- ================================================================
-- src/verification_interfaces/uclidinterface.rs : the Uclid5 emitter

namespace uclid

open veriv_ast sl_ast dwarf

/-- Modelled from the spec: the `Expr::get_expect_var` accessor the emitter
applies to declared arguments (a panic on non-variables). -/
def Expr.get_expect_var : Expr → Option Var
  | Expr.Var v _ => some v
  | _ => none

/-- Embeds `Uclid5Interface::lit_to_string` (the bitvector value is printed
through an `as i64` cast). -/
def lit_to_string : Lit → String
  | Lit.Bv val width => toString (to_i64 val) ++ "bv" ++ toString width
  | Lit.Bool val => if val then "true" else "false"
  | Lit.Int val => toString val

mutual

/-- Embeds `Uclid5Interface::typ_to_string` (unknown and struct types
panic). -/
def typ_to_string : Ty → Option String
  | Ty.Unknown => none
  | Ty.Bool => some "boolean"
  | Ty.Int => some "integer"
  | Ty.Bv w => some ("bv" ++ toString w)
  | Ty.Array in_typs out_typ => do
      let ins ← typ_to_string_list in_typs
      let out ← typ_to_string out_typ
      some ("[" ++ String.intercalate ", " ins ++ "]" ++ out)
  | Ty.Struct _ _ _ => none

/-- List part of `typ_to_string`. -/
def typ_to_string_list : List Ty → Option (List String)
  | [] => some []
  | t :: r => do
      let s ← typ_to_string t
      let rs ← typ_to_string_list r
      some (s :: rs)

end

/-- Embeds `Uclid5Interface::var_to_string`. -/
def var_to_string (v : Var) : String := v.name

/-- Embeds `Uclid5Interface::var_decl` (`name: type`). -/
def var_decl (v : Var) : Option String := do
  let t ← typ_to_string v.typ
  some (var_to_string v ++ ": " ++ t)

/-- Embeds `Uclid5Interface::gen_var_defns` up to the iteration order of
the `model.vars` hash set, which is passed in as `vars_iter`: sort by
variable name (the `Ord` of `Var`), emit one `var` declaration per line
under the header comment. -/
def gen_var_defns (vars_iter : List Var) : Option String := do
  let sorted := sortByB (fun a b => strLeB a.name b.name) vars_iter
  let defns ← sorted.mapM (fun v => do
    let d ← var_decl v
    pure ("var " ++ d ++ ";"))
  some ("// RISC-V system state variables\n" ++ String.intercalate "\n" defns)

/-- Characters of a string before its first occurrence of `"bv"`, embedding
`s.split("bv").next().unwrap()`. -/
def take_before_bv : List Char → List Char
  | [] => []
  | 'b' :: 'v' :: _ => []
  | c :: rest => c :: take_before_bv rest

/-- Embeds `Uclid5Interface::comp_app_to_string`. -/
def comp_app_to_string (compop : veriv_ast.CompOp) (e1 e2 : Option String) : Option String := do
  let a ← e1
  let b ← e2
  let tok :=
    match compop with
    | veriv_ast.CompOp.Equality => "=="
    | veriv_ast.CompOp.Inequality => "!="
    | veriv_ast.CompOp.Lt => "<"
    | veriv_ast.CompOp.Le => "<="
    | veriv_ast.CompOp.Gt => ">"
    | veriv_ast.CompOp.Ge => ">="
    | veriv_ast.CompOp.Ltu => "<_u"
    | veriv_ast.CompOp.Leu => "<=_u"
    | veriv_ast.CompOp.Gtu => ">_u"
    | veriv_ast.CompOp.Geu => ">=_u"
  some ("(" ++ a ++ " " ++ tok ++ " " ++ b ++ ")")

/-- Embeds `Uclid5Interface::bv_app_to_string`: infix tokens for the
arithmetic operators, `bv_sign_extend`/`bv_zero_extend` with the width
taken from the printed second operand (suppressed at width zero), the
shifts through `bv_left_shift`/`bv_l_right_shift`/`bv_a_right_shift` with
the operands swapped, concatenation and slicing. -/
def bv_app_to_string (bvop : BVOp) (e1 e2 : Option String) : Option String :=
  match bvop with
  | BVOp.Add => do
      let a ← e1; let b ← e2; some ("(" ++ a ++ " + " ++ b ++ ")")
  | BVOp.Sub => do
      let a ← e1; let b ← e2; some ("(" ++ a ++ " - " ++ b ++ ")")
  | BVOp.Mul => do
      let a ← e1; let b ← e2; some ("(" ++ a ++ " * " ++ b ++ ")")
  | BVOp.And => do
      let a ← e1; let b ← e2; some ("(" ++ a ++ " & " ++ b ++ ")")
  | BVOp.Or => do
      let a ← e1; let b ← e2; some ("(" ++ a ++ " | " ++ b ++ ")")
  | BVOp.Xor => do
      let a ← e1; let b ← e2; some ("(" ++ a ++ " ^ " ++ b ++ ")")
  | BVOp.SignExt => do
      let b ← e2
      let width := String.mk (take_before_bv b.data)
      if width ≠ "0" then do
        let a ← e1
        some ("bv_sign_extend(" ++ width ++ ", " ++ a ++ ")")
      else e1
  | BVOp.ZeroExt => do
      let b ← e2
      let width := String.mk (take_before_bv b.data)
      if width ≠ "0" then do
        let a ← e1
        some ("bv_zero_extend(" ++ width ++ ", " ++ a ++ ")")
      else e1
  | BVOp.LeftShift => do
      let a ← e1; let b ← e2; some ("bv_left_shift(" ++ b ++ ", " ++ a ++ ")")
  | BVOp.RightShift => do
      let a ← e1; let b ← e2; some ("bv_l_right_shift(" ++ b ++ ", " ++ a ++ ")")
  | BVOp.ARightShift => do
      let a ← e1; let b ← e2; some ("bv_a_right_shift(" ++ b ++ ", " ++ a ++ ")")
  | BVOp.Concat => do
      let a ← e1; let b ← e2; some ("(" ++ a ++ " ++ " ++ b ++ ")")
  | BVOp.Slice l r => do
      let a ← e1
      some (a ++ "[" ++ toString l ++ ":" ++ toString r ++ "]")

/-- Embeds `Uclid5Interface::bool_app_to_string`. -/
def bool_app_to_string (bop : veriv_ast.BoolOp) (e1 e2 : Option String) : Option String :=
  match bop with
  | veriv_ast.BoolOp.Conj => do
      let a ← e1; let b ← e2; some ("(" ++ a ++ " && " ++ b ++ ")")
  | veriv_ast.BoolOp.Disj => do
      let a ← e1; let b ← e2; some ("(" ++ a ++ " || " ++ b ++ ")")
  | veriv_ast.BoolOp.Iff => do
      let a ← e1; let b ← e2; some ("(" ++ a ++ " <==> " ++ b ++ ")")
  | veriv_ast.BoolOp.Impl => do
      let a ← e1; let b ← e2; some ("(" ++ a ++ " ==> " ++ b ++ ")")
  | veriv_ast.BoolOp.Neg => do
      let a ← e1; some ("!" ++ a)

mutual

/-- Modelled from the spec: the `expr_to_string` dispatcher of the (absent)
`ir_interface` module, routing each expression constructor to the
operator-formatting helpers of this file — a mechanical 1:1 mapping to the
verifier's surface syntax. -/
def expr_to_string (xlen : Nat) : Expr → Option String
  | Expr.Literal lit _ => some (lit_to_string lit)
  | Expr.Var v _ => some (var_to_string v)
  | Expr.OpApp op operands _ => do
      let strs ← expr_to_string_list xlen operands
      let e1 := strs.get? 0
      let e2 := strs.get? 1
      match op with
      | Op.Comp cop => comp_app_to_string cop e1 e2
      | Op.Bv bvop => bv_app_to_string bvop e1 e2
      | Op.Bool bop => bool_app_to_string bop e1 e2
      | Op.ArrayIndex => do
          let a ← e1
          let i ← e2
          some (a ++ "[" ++ i ++ "]")
      | Op.GetField f => do
          let a ← e1
          some (a ++ "." ++ f)
  | Expr.FuncApp fname operands _ => do
      let strs ← expr_to_string_list xlen operands
      some (fname ++ "(" ++ String.intercalate ", " strs ++ ")")

/-- List part of `expr_to_string`. -/
def expr_to_string_list (xlen : Nat) : List Expr → Option (List String)
  | [] => some []
  | e :: r => do
      let s ← expr_to_string xlen e
      let rs ← expr_to_string_list xlen r
      some (s :: rs)

end

/-- Embeds `Uclid5Interface::assume_to_string`. -/
def assume_to_string (xlen : Nat) (e : Expr) : Option String := do
  let s ← expr_to_string xlen e
  some ("assume (" ++ s ++ ");")

/-- Embeds `Uclid5Interface::func_call_to_string` (a printed argument equal
to `zero` becomes the zero literal at XLEN; dots in the callee name become
underscores). -/
def func_call_to_string (xlen : Nat) (func_name : String) (lhs operands : List Expr) :
    Option String := do
  let lhs_strs ← expr_to_string_list xlen lhs
  let arg_strs ← expr_to_string_list xlen operands
  let args := arg_strs.map (fun s => if s = "zero" then "0bv" ++ toString xlen else s)
  some ("call (" ++ String.intercalate ", " lhs_strs ++ ") = " ++
    String.mk (func_name.data.map (fun c => if c = '.' then '_' else c)) ++
    "(" ++ String.intercalate ", " args ++ ");")

/-- Embeds `Uclid5Interface::assign_to_string`. -/
def assign_to_string (xlen : Nat) (lhs rhs : List Expr) : Option String := do
  let lhs_strs ← expr_to_string_list xlen lhs
  let rhs_strs ← expr_to_string_list xlen rhs
  some (String.intercalate ", " lhs_strs ++ " = " ++ String.intercalate ", " rhs_strs ++ ";")

/-- Embeds `Uclid5Interface::comment_to_string`. -/
def comment_to_string (s : String) : String := "// " ++ s ++ "\n"

mutual

/-- Embeds `Uclid5Interface::stmt_to_string`. -/
def stmt_to_string (xlen : Nat) : Stmt → Option String
  | Stmt.Assume e => assume_to_string xlen e
  | Stmt.FuncCall fname lhs operands => func_call_to_string xlen fname lhs operands
  | Stmt.Assign lhs rhs => assign_to_string xlen lhs rhs
  | Stmt.IfThenElse cond then_stmt else_stmt =>
      match expr_to_string xlen cond, stmt_to_string xlen then_stmt,
          stmt_else_to_string xlen else_stmt with
      | some c, some thn_raw, some els =>
          some ("if (" ++ c ++ ") \x7b\n" ++ uclid_utils.indent_text thn_raw 4 ++ "\n\x7d" ++ els)
      | _, _, _ => none
  | Stmt.Block stmts =>
      match stmt_to_string_list xlen stmts with
      | some strs =>
          some ("\x7b\n" ++ uclid_utils.indent_text (String.intercalate "\n" strs) 4 ++ "\n\x7d")
      | none => none
  | Stmt.Comment s => some (comment_to_string s)

/-- Else-branch part of `stmt_to_string` (an absent branch prints as the
empty string). -/
def stmt_else_to_string (xlen : Nat) : Option Stmt → Option String
  | some e =>
      match stmt_to_string xlen e with
      | some s => some ("else \x7b\n" ++ uclid_utils.indent_text s 4 ++ "\n\x7d")
      | none => none
  | none => some ""

/-- List part of `stmt_to_string`. -/
def stmt_to_string_list (xlen : Nat) : List Stmt → Option (List String)
  | [] => some []
  | s :: r =>
      match stmt_to_string xlen s, stmt_to_string_list xlen r with
      | some str, some rs => some (str :: rs)
      | _, _ => none

end

/-- Embeds `Uclid5Interface::block_to_string`. -/
def block_to_string (xlen : Nat) (blk : List Stmt) : Option String :=
  match stmt_to_string_list xlen blk with
  | some strs =>
      some ("\x7b\n" ++ uclid_utils.indent_text (String.intercalate "\n" strs) 4 ++ "\n\x7d")
  | none => none

end uclid

-- ================================================================
-- src/verification_interfaces/uclidinterface.rs (continued)

namespace uclid

open veriv_ast sl_ast dwarf

/-- Embeds `SpecLangASTInterface::bopp_to_string` (only the four
propositional connectives are matched; a quantifier panics). -/
def bopp_to_string : sl_ast.BoolOp → Option String
  | sl_ast.BoolOp.Conj => some "&&"
  | sl_ast.BoolOp.Disj => some "||"
  | sl_ast.BoolOp.Neg => some "!"
  | sl_ast.BoolOp.Implies => some "==>"
  | _ => none

/-- Embeds `SpecLangASTInterface::cop_to_string`. -/
def cop_to_string : sl_ast.CompOp → String
  | sl_ast.CompOp.Equal => "=="
  | sl_ast.CompOp.Nequal => "!="
  | sl_ast.CompOp.Gt => ">"
  | sl_ast.CompOp.Lt => "<"
  | sl_ast.CompOp.Gtu => ">_u"
  | sl_ast.CompOp.Ltu => "<_u"
  | sl_ast.CompOp.Geq => ">="
  | sl_ast.CompOp.Leq => "<="
  | sl_ast.CompOp.Geu => ">=_u"
  | sl_ast.CompOp.Leu => "<=_u"

/-- Embeds `SpecLangASTInterface::vexpr_bv_to_string` (panics on non-bv
types). -/
def vexpr_bv_to_string (value : Nat) (typ : VType) : Option String :=
  match typ with
  | VType.Bv width => some (toString value ++ "bv" ++ toString width)
  | _ => none

/-- Embeds `SpecLangASTInterface::valueop_to_string` (the source literally
returns the string `m`). -/
def valueop_to_string (_op : ValueOp) : String := "m"

mutual

/-- Modelled from the spec: the `vexpr_to_string` dispatcher of the
(absent) `ir_interface` module, routing to this file's helpers. -/
def vexpr_to_string : VExpr → Option String
  | VExpr.Bv value typ => vexpr_bv_to_string value typ
  | VExpr.Int i _ => some (toString i)
  | VExpr.Bool b _ => some (if b then "true" else "false")
  | VExpr.Ident name _ => some name
  | VExpr.OpApp op exprs _ => vexpr_opapp_to_string op exprs
  | VExpr.FuncApp _ _ _ => some "v"
  termination_by e => (sizeOf e, 0)

/-- Embeds `SpecLangASTInterface::vexpr_opapp_to_string`: the arithmetic
operators fold their operands behind the (stub) operator token, array
indexing goes through the `index_by_<n>` macro (with the source's stray
closing parenthesis), field selection through the `struct_<id>_<field>`
macro, and everything else panics. -/
def vexpr_opapp_to_string (op : ValueOp) (exprs : List VExpr) : Option String :=
  match op with
  | ValueOp.Add | ValueOp.Sub | ValueOp.Div | ValueOp.Mul => do
      let strs ← vexpr_to_string_list exprs
      some (strs.foldl (fun acc s => acc ++ " " ++ valueop_to_string op ++ " " ++ s) "")
  | ValueOp.ArrayIndex =>
      match exprs with
      | e0 :: e1 :: _ => do
          let arr ← vexpr_to_string e0
          let index ← vexpr_to_string e1
          let bytes ←
            match e0.typ with
            | VType.Array _ out_type =>
                match out_type with
                | VType.Bv w => some (w / uclid_utils.BYTE_SIZE)
                | VType.Struct _ _ size => some (size / uclid_utils.BYTE_SIZE)
                | _ => none
            | _ => none
          some ("index_by_" ++ toString bytes ++ "(" ++ arr ++ ", " ++ index ++ "))")
      | _ => none
  | ValueOp.GetField =>
      match exprs with
      | e0 :: e1 :: _ => do
          let struct_name ←
            match e0.typ with
            | VType.Struct id _ _ => some id
            | _ => none
          let field_name ← vexpr_to_string e1
          let expr_str ← vexpr_to_string e0
          some ("struct_" ++ struct_name ++ "_" ++ field_name ++ "(" ++ expr_str ++ ")")
      | _ => none
  | _ => none
  termination_by (sizeOf exprs, 1)

/-- List part of `vexpr_to_string`. -/
def vexpr_to_string_list : List VExpr → Option (List String)
  | [] => some []
  | e :: r => do
      let s ← vexpr_to_string e
      let rs ← vexpr_to_string_list r
      some (s :: rs)
  termination_by l => (sizeOf l, 0)

end

/-- Embeds `SpecLangASTInterface::bexpr_copapp_to_string` (asserts exactly
two operands). -/
def bexpr_copapp_to_string (cop : sl_ast.CompOp) (exprs : List VExpr) : Option String :=
  if exprs.length = 2 then do
    let e0 ← exprs.head?
    let e1 ← exprs.get? 1
    let s1 ← vexpr_to_string e0
    let s2 ← vexpr_to_string e1
    some (s1 ++ " " ++ cop_to_string cop ++ " " ++ s2)
  else none

mutual

/-- Modelled from the spec: the `bexpr_to_string` dispatcher of the
(absent) `ir_interface` module. -/
def bexpr_to_string : BExpr → Option String
  | BExpr.Bool b => some (if b then "true" else "false")
  | BExpr.BOpApp bop exprs => bexpr_bopapp_to_string bop exprs
  | BExpr.COpApp cop exprs => bexpr_copapp_to_string cop exprs

/-- Embeds `SpecLangASTInterface::bexpr_bopapp_to_string`: the first
operand is printed (empty operand lists panic), negation is prefix, the
rest are folded infix. -/
def bexpr_bopapp_to_string (bop : sl_ast.BoolOp) (exprs : List BExpr) : Option String := do
  let bop_str ← bopp_to_string bop
  match exprs with
  | [] => none
  | e0 :: rest => do
      let first ← bexpr_to_string e0
      match bop with
      | sl_ast.BoolOp.Neg => some (bop_str ++ first)
      | _ => do
          let rest_strs ← bexpr_to_string_list rest
          some (rest_strs.foldl (fun acc s => acc ++ " " ++ bop_str ++ " " ++ s) first)

/-- List part of `bexpr_to_string`. -/
def bexpr_to_string_list : List BExpr → Option (List String)
  | [] => some []
  | e :: r => do
      let s ← bexpr_to_string e
      let rs ← bexpr_to_string_list r
      some (s :: rs)

end

/-- Embeds `Spec::get_bexpr` (only `Requires`/`Ensures` carry one). -/
def spec_get_bexpr : Spec → Option BExpr
  | Spec.Requires e => some e
  | Spec.Ensures e => some e
  | _ => none

/-- Embeds `Uclid5Interface::specs_to_string` — the requires/ensures lines
the emitter renders (and then only prints to the log). -/
def specs_to_string (fsig : FuncSig) : Option String := do
  let req ← fsig.requires.mapM (fun r => do
    let b ← spec_get_bexpr r
    let s ← bexpr_to_string b
    pure ("requires " ++ s ++ ";\n"))
  let ens ← fsig.ensures.mapM (fun r => do
    let b ← spec_get_bexpr r
    let s ← bexpr_to_string b
    pure ("ensures " ++ s ++ ";\n"))
  some (String.join req ++ String.join ens)

/-- Embeds `Uclid5Interface::func_model_to_string` up to the iteration
order of the `mod_set` hash set, which is passed in as `mod_set_iter`: the
modifies clause joins that iteration order verbatim (the length test is on
the set itself), while the rest of the procedure text is independent of
it. -/
def func_model_to_string (xlen : Nat) (fm : FuncModel) (mod_set_iter : List String) :
    Option String := do
  let arg_decls ← fm.sig.arg_decls.mapM (fun e => do
    let v ← Expr.get_expect_var e
    var_decl v)
  let args := String.intercalate ", " arg_decls
  let ret ←
    match fm.sig.ret_decl with
    | some rd => do
        let t ← typ_to_string rd
        pure (" returns (ret: " ++ t ++ ")")
    | none => pure ""
  let modifies :=
    if 0 < fm.sig.mod_set.card then
      "\n    modifies " ++ String.intercalate ", " mod_set_iter ++ ";"
    else ""
  let body_blk ← fm.body.get_expect_block
  let body ← block_to_string xlen body_blk
  let inline := if fm.inline then "[inline] " else ""
  some ("procedure " ++ inline ++ fm.sig.name ++ "(" ++ args ++ ")" ++ ret ++
    modifies ++ "" ++ "" ++ "\n" ++ body ++ "\n\n" ++ "")

/-- Embeds `Uclid5Interface::gen_procs`: each function model's spec lines
are rendered (for the log) and its procedure text emitted; one mod-set
iteration order per model is supplied positionally. -/
def gen_procs (xlen : Nat) (model : Model) (mod_set_iters : List (List String)) :
    Option String := do
  let texts ← (model.func_models.zip mod_set_iters).mapM (fun p => do
    let _ ← specs_to_string p.1.sig
    func_model_to_string xlen p.1 p.2)
  some (uclid_utils.indent_text (String.intercalate "\n\n" texts) 4)

/-- Embeds `Uclid5Interface::control_blk`. -/
def control_blk (model : Model) (d : DwarfCtx) (ignored_funcs : List String)
    (verify_funcs : List String) : String :=
  let verif_fns_string :=
    if 0 < verify_funcs.length then
      String.intercalate "\n"
        (verify_funcs.map (fun f => "f" ++ f ++ " = verify(" ++ f ++ ");"))
    else
      String.intercalate "\n"
        ((model.func_models.filter (fun fm => (d.func_sig fm.sig.name).isSome)).map
          (fun fm =>
            if ¬ ignored_funcs.contains fm.sig.name then
              "f" ++ fm.sig.name ++ " = verify(" ++ fm.sig.name ++ ");"
            else ""))
  let verif_fns_string := verif_fns_string ++ "\ncheck;\nprint_results;"
  let verif_fns_string := uclid_utils.indent_text verif_fns_string 4
  let solver_opts := uclid_utils.indent_text
    ("set_solver_option(\":mbqi\", false);\nset_solver_option(\":case_split\", 0);\nset_solver_option(\":relevancy\", 0);\nset_solver_option(\":blast_full\", true);") 4
  let control_string := "control \x7b\n" ++ solver_opts ++ "\n" ++ verif_fns_string ++ "\n\x7d"
  uclid_utils.indent_text control_string 4

/-- Embeds `Uclid5Interface::multiply_expr`: the constant multiplier is
decomposed over its binary digits into a sum of `bv_left_shift` terms. -/
def multiply_expr (num_const : Nat) (expr : String) (xlen : Nat) : String :=
  (((Nat.toDigits 2 num_const).reverse).foldl
    (fun (acc : String × Nat) x =>
      if x = '1' then
        ("bv_left_shift(" ++ toString acc.2 ++ "bv" ++ toString xlen ++ ", " ++ expr ++ ")" ++
          (if acc.1.length = 0 then "" else " + ") ++ acc.1,
         acc.2 + 1)
      else (acc.1, acc.2 + 1))
    ("", 0)).1

/-- Embeds `Uclid5Interface::array_index_macro_name`. -/
def array_index_macro_name (bytes : Nat) : String := "index_by_" ++ toString bytes

mutual

/-- Embeds `Uclid5Interface::gen_array_defn`: one `index_by_<bytes>` macro
per positive-sized primitive or struct, recursing through array element
types, struct fields and pointer targets. -/
def gen_array_defn (typ_defn : DwarfTypeDefn) (xlen : Nat) : List String :=
  match typ_defn with
  | DwarfTypeDefn.Primitive bytes =>
      if 0 < bytes then
        ["define " ++ array_index_macro_name bytes ++ "(base: bv" ++ toString xlen ++
          ", index: bv" ++ toString xlen ++ "): bv" ++ toString xlen ++ " = base + " ++
          (if bytes = 1 then "index" else multiply_expr bytes "index" xlen) ++ ";"]
      else []
  | DwarfTypeDefn.Array in_typ out_typ _ =>
      gen_array_defn in_typ xlen ++ gen_array_defn out_typ xlen
  | DwarfTypeDefn.Struct _ fields bytes =>
      gen_array_defn_fields fields xlen ++
        (if 0 < bytes then
          ["define " ++ array_index_macro_name bytes ++ "(base: bv" ++ toString xlen ++
            ", index: bv" ++ toString xlen ++ "): bv" ++ toString xlen ++ " = base + " ++
            multiply_expr bytes "index" xlen ++ ";"]
         else [])
  | DwarfTypeDefn.Pointer value_typ _ => gen_array_defn value_typ xlen

/-- Field part of `gen_array_defn`. -/
def gen_array_defn_fields (fields : List (String × DwarfTypeDefn × Nat)) (xlen : Nat) :
    List String :=
  match fields with
  | [] => []
  | (_, t, _) :: r => gen_array_defn t xlen ++ gen_array_defn_fields r xlen

end

/-- Removal of consecutive duplicates, embedding `Vec::dedup` (applied
after sorting). -/
def dedup_consecutive : List String → List String
  | [] => []
  | [a] => [a]
  | a :: b :: t =>
      if a = b then dedup_consecutive (b :: t) else a :: dedup_consecutive (b :: t)

/-- Embeds `Uclid5Interface::gen_array_defns`: macros collected from the
globals and every function signature, then sorted and deduplicated. -/
def gen_array_defns (d : DwarfCtx) (xlen : Nat) : String :=
  let defns :=
    (d.globals.map (fun v => gen_array_defn v.typ_defn xlen)).flatten ++
    (d.func_sigs_list.map (fun p =>
      (p.2.args.map (fun v => gen_array_defn v.typ_defn xlen)).flatten ++
      (match p.2.ret_type with
       | some rt => gen_array_defn rt xlen
       | none => []))).flatten
  let defns := dedup_consecutive (sortByB strLeB defns)
  uclid_utils.indent_text ("// Array helpers\n" ++ String.intercalate "\n" defns) 4

/-- Embeds `Uclid5Interface::get_field_macro_name`. -/
def get_field_macro_name (struct_id field_name : String) : String :=
  struct_id ++ "_" ++ field_name

mutual

/-- Embeds `Uclid5Interface::gen_struct_defn`: a `ptr + offset` macro per
struct field, recursing into field and array element types. -/
def gen_struct_defn (typ : DwarfTypeDefn) (xlen : Nat) : List String :=
  match typ with
  | DwarfTypeDefn.Struct id fields _ => gen_struct_defn_fields id fields xlen
  | DwarfTypeDefn.Array in_typ out_typ _ =>
      gen_struct_defn in_typ xlen ++ gen_struct_defn out_typ xlen
  | _ => []

/-- Field part of `gen_struct_defn`. -/
def gen_struct_defn_fields (id : String)
    (fields : List (String × DwarfTypeDefn × Nat)) (xlen : Nat) : List String :=
  match fields with
  | [] => []
  | (field_name, t, loc) :: r =>
      gen_struct_defn t xlen ++
      ["define " ++ get_field_macro_name id field_name ++ "(ptr: bv" ++ toString xlen ++
        "): bv" ++ toString xlen ++ " = ptr + " ++ toString loc ++ "bv" ++ toString xlen ++ ";"] ++
      gen_struct_defn_fields id r xlen

end

/-- Embeds `Uclid5Interface::gen_struct_defns` (sorted and deduplicated,
like the array macros). -/
def gen_struct_defns (d : DwarfCtx) (xlen : Nat) : String :=
  let defns :=
    (d.globals.map (fun v => gen_struct_defn v.typ_defn xlen)).flatten ++
    (d.func_sigs_list.map (fun p =>
      (p.2.args.map (fun v => gen_struct_defn v.typ_defn xlen)).flatten ++
      (match p.2.ret_type with
       | some rt => gen_struct_defn rt xlen
       | none => []))).flatten
  let defns := dedup_consecutive (sortByB strLeB defns)
  uclid_utils.indent_text ("// Struct helpers\n" ++ String.intercalate "\n" defns) 4

/-- Embeds `Uclid5Interface::gen_global_defn`. -/
def gen_global_defn (global_var : DwarfVar) (xlen : Nat) : String :=
  "define " ++ uclid_utils.global_var_ptr_name global_var.name ++ "(): bv" ++ toString xlen ++
    " = " ++ toString global_var.memory_addr ++ "bv" ++ toString xlen ++ ";"

/-- Embeds `Uclid5Interface::gen_global_defns`. -/
def gen_global_defns (d : DwarfCtx) (xlen : Nat) : String :=
  uclid_utils.indent_text
    (d.globals.foldl (fun acc v => acc ++ gen_global_defn v xlen ++ "\n")
      "// Global variables\n") 4

/-- Embeds `Uclid5Interface::gen_global_func_defn`. -/
def gen_global_func_defn (func_name : String) (func_entry_addr : Nat) (xlen : Nat) : String :=
  "define " ++ uclid_utils.global_func_addr_name func_name ++ "(): bv" ++ toString xlen ++
    " = " ++ toString func_entry_addr ++ "bv" ++ toString xlen ++ ";"

/-- Embeds `Uclid5Interface::gen_global_func_defns`. -/
def gen_global_func_defns (model : Model) (xlen : Nat) : String :=
  uclid_utils.indent_text
    (model.func_models.foldl
      (fun acc fm => acc ++ gen_global_func_defn fm.sig.name fm.sig.entry_addr xlen ++ "\n")
      "// Global function entry addresses\n") 4

/-- Embeds `Uclid5Interface::model_to_string` up to its two sources of
ambient state: the prelude file read (`prelude`, passed in) and the
iteration orders of the `model.vars` hash set (`vars_iter`) and of each
function model's `mod_set` hash set (`mod_set_iters`, positional). -/
def model_to_string (xlen : Nat) (model : Model) (d : DwarfCtx)
    (ignored_funcs verify_funcs : List String) (prelude : String)
    (vars_iter : List Var) (mod_set_iters : List (List String)) : Option String := do
  let var_defns_raw ← gen_var_defns vars_iter
  let var_defns := uclid_utils.indent_text var_defns_raw 4
  let array_defns := gen_array_defns d xlen
  let struct_defns := gen_struct_defns d xlen
  let global_var_defns := gen_global_defns d xlen
  let global_func_defns := gen_global_func_defns model xlen
  let procs ← gen_procs xlen model mod_set_iters
  let ctrl_blk := control_blk model d ignored_funcs verify_funcs
  some ("module " ++ model.name ++ " \x7b\n" ++ prelude ++ "\n" ++ var_defns ++ "\n" ++
    array_defns ++ "\n" ++ struct_defns ++ "\n" ++ global_var_defns ++ "\n" ++
    global_func_defns ++ "\n" ++ procs ++ "\n\n" ++ ctrl_blk ++ "\n\x7d")

end uclid

-- ================================================================
-- Auxiliary predicates and concrete fixtures used by the theorems

namespace riscverifier

open sl_ast dwarf

mutual

/-- Syntactic safety predicate for the idempotence statement: value
expressions free of identifiers that name DWARF globals, of `GetField` and
`ArrayIndex` operator applications (whose rewrite inserts dereferences),
and of function applications (whose hook re-visits its arguments). -/
def pass1_safe (d : DwarfCtx) : VExpr → Bool
  | VExpr.Bv _ _ | VExpr.Int _ _ | VExpr.Bool _ _ => true
  | VExpr.Ident n _ => (d.global_var_type n).isNone
  | VExpr.OpApp op args _ =>
      (match op with
       | ValueOp.GetField => false
       | ValueOp.ArrayIndex => false
       | _ => true) && pass1_safe_list d args
  | VExpr.FuncApp _ _ _ => false

/-- List version of `pass1_safe`. -/
def pass1_safe_list (d : DwarfCtx) : List VExpr → Bool
  | [] => true
  | e :: es => pass1_safe d e && pass1_safe_list d es

end

mutual

/-- Safety predicate for boolean spec expressions: all contained value
expressions are `pass1_safe`. -/
def pass1_safe_bexpr (d : DwarfCtx) : BExpr → Bool
  | BExpr.Bool _ => true
  | BExpr.BOpApp _ args => pass1_safe_bexprs d args
  | BExpr.COpApp _ vargs => pass1_safe_list d vargs

/-- List version of `pass1_safe_bexpr`. -/
def pass1_safe_bexprs (d : DwarfCtx) : List BExpr → Bool
  | [] => true
  | e :: es => pass1_safe_bexpr d e && pass1_safe_bexprs d es

end

/-- DWARF context of the spec's seed test 2: a single global `int g` (a
4-byte primitive) at address `0x1000`, no function signatures, XLEN 64. -/
def gctx : DwarfCtx :=
  { xlen := 64
    globals := [⟨"g", 0x1000, DwarfTypeDefn.Primitive 4⟩]
    func_sigs_list := [] }

/-- Fixture for the idempotence scenario: the spec comparison
`g == 0bv32` before any pass has run. -/
def c7_b : BExpr :=
  BExpr.COpApp CompOp.Equal [VExpr.Ident "g" VType.Unknown, VExpr.Bv 0 (VType.Bv 32)]

/-- One run of Pass 1 on `c7_b`: the global is wrapped in a single
dereference. -/
def c7_once : BExpr :=
  BExpr.COpApp CompOp.Equal
    [VExpr.OpApp ValueOp.Deref [VExpr.Ident "g" (VType.Bv 32)] (VType.Bv 32),
     VExpr.Bv 0 (VType.Bv 32)]

/-- Two runs of Pass 1 on `c7_b`: the second run wraps the already
dereferenced global again. -/
def c7_twice : BExpr :=
  BExpr.COpApp CompOp.Equal
    [VExpr.OpApp ValueOp.Deref
       [VExpr.OpApp ValueOp.Deref [VExpr.Ident "g" (VType.Bv 32)] (VType.Bv 32)]
       (VType.Bv 32),
     VExpr.Bv 0 (VType.Bv 32)]

/-- Fixture for the idempotence witness: a comparison over a non-global
identifier. -/
def c7w_b : BExpr :=
  BExpr.COpApp CompOp.Equal [VExpr.Ident "x" VType.Unknown, VExpr.Bv 0 (VType.Bv 64)]

end riscverifier

namespace translator

open veriv_ast sl_ast dwarf

/-- Fixture for the ignored-callee scenario: `f` at `0x100` and `g` at
`0x200`, both labelled function entries. -/
def c1_bbs : List (Nat × BasicBlockInfo) := [(256, ⟨true, "f"⟩), (512, ⟨true, "g"⟩)]

/-- Fixture: the spec map declares `Modifies({a0})` for `g` and nothing
for `f`. -/
def c1_specs : List (String × List Spec) := [("g", [Spec.Modifies {"a0"}])]

/-- Fixture: the single basic block of `f` writes the register `t0`. -/
def c1_bodies : List (Nat × Stmt) :=
  [(256, Stmt.Block [Stmt.Assign [Expr.var "t0" (system_model.bv_type 64)] [Expr.bv_lit 5 64]])]

/-- Fixture for the dispatch-body scenario: one function `f` whose single
block at `0x80` ends in a non-jal instruction. -/
def c3_bbs : List (Nat × BasicBlockInfo) := [(128, ⟨true, "f"⟩)]

/-- Fixture: the CFG of `c3_bbs`. -/
def c3_cfg : Cfg := ⟨128, [(128, ⟨128, true, "jr", none, []⟩)]⟩

/-- Fixture: an empty DWARF context at XLEN 64. -/
def c3_dwarf : DwarfCtx := ⟨64, [], []⟩

/-- The body the builder synthesizes for the `c3` fixture: one guarded
basic-block call followed by `returned = 1`. -/
def c3_body : Stmt :=
  Stmt.Block
    [Stmt.IfThenElse
      (Expr.OpApp (Op.Bool BoolOp.Conj)
        [Expr.OpApp (Op.Comp CompOp.Equality)
           [Expr.Var (system_model.pc_var 64) (system_model.bv_type 64),
            Expr.bv_lit 128 64] Ty.Bool,
         Expr.OpApp (Op.Comp CompOp.Equality)
           [Expr.var constants.RETURNED_FLAG (system_model.bv_type 1),
            Expr.bv_lit 0 1] Ty.Bool] Ty.Bool)
      (Stmt.Block [Stmt.func_call (bb_proc_name 128) [] []]) none,
     Stmt.assign [Expr.var constants.RETURNED_FLAG (system_model.bv_type 1)]
       [Expr.bv_lit 1 1]]

/-- Fixture for the cycle scenario: function `h` with blocks
`A = 0x1000 → B = 0x1004 → A`. -/
def c8_bbs : List (Nat × BasicBlockInfo) := [(4096, ⟨true, "h"⟩), (4100, ⟨false, "h"⟩)]

/-- Fixture: the cyclic CFG `A → B → A`. -/
def c8_cfg : Cfg :=
  ⟨4096, [(4096, ⟨4096, true, "beq", none, [4100]⟩), (4100, ⟨4100, false, "beq", none, [4096]⟩)]⟩

/-- Fixture: an empty DWARF context at XLEN 64 for the cycle scenario. -/
def c8_dwarf : DwarfCtx := ⟨64, [], []⟩

end translator

namespace uclid

open veriv_ast

/-- Fixture for the emitter-determinism scenario: a function model `f`
with an empty body and the two-element modifies set `{a0, ra}`. -/
def c4_fm : FuncModel :=
  { sig :=
      { name := "f", entry_addr := 0, arg_decls := [], ret_decl := none
        requires := [], ensures := [], tracked := [], mod_set := {"a0", "ra"} }
    body := Stmt.Block []
    inline := false }

/-- Fixture: a model containing only `c4_fm`, with no registered state
variables. -/
def c4_model : Model := ⟨"m", [], [c4_fm]⟩

/-- Fixture: an empty DWARF context at XLEN 64. -/
def c4_dwarf : dwarf.DwarfCtx := ⟨64, [], []⟩

/-- Fixture: a function model used by the witness of the duplicate-name
claim. -/
def c9_fm : FuncModel :=
  { sig :=
      { name := "f", entry_addr := 0, arg_decls := [], ret_decl := none
        requires := [], ensures := [], tracked := [], mod_set := ∅ }
    body := Stmt.Block []
    inline := false }

end uclid

-- ================================================================
-- Generic lemmas about the stable sort helper

theorem ordInsert_perm {α : Type} (le : α → α → Bool) (a : α) :
    ∀ l : List α, (ordInsert le a l).Perm (a :: l)
  | [] => List.Perm.refl _
  | b :: t => by
      simp only [ordInsert]
      split
      · exact List.Perm.refl _
      · exact ((ordInsert_perm le a t).cons b).trans (List.Perm.swap a b t)

theorem sortByB_perm {α : Type} (le : α → α → Bool) :
    ∀ l : List α, (sortByB le l).Perm l
  | [] => List.Perm.refl _
  | a :: t => (ordInsert_perm le a (sortByB le t)).trans ((sortByB_perm le t).cons a)

theorem ordInsert_pairwise {α : Type} (le : α → α → Bool)
    (htot : ∀ a b, le a b || le b a) (htr : ∀ a b c, le a b → le b c → le a c)
    (a : α) : ∀ l : List α, l.Pairwise (fun x y => le x y = true) →
      (ordInsert le a l).Pairwise (fun x y => le x y = true)
  | [], _ => by simp [ordInsert]
  | b :: t, h => by
      simp only [ordInsert]
      split
      · rename_i hab
        refine List.Pairwise.cons ?_ h
        intro x hx
        rcases List.mem_cons.mp hx with rfl | hx
        · exact hab
        · exact htr a b x hab ((List.pairwise_cons.mp h).1 x hx)
      · rename_i hab
        have hba : le b a := by
          rcases Bool.or_eq_true_iff.mp (htot a b) with h1 | h1
          · exact absurd h1 hab
          · exact h1
        refine List.Pairwise.cons ?_ (ordInsert_pairwise le htot htr a t (List.pairwise_cons.mp h).2)
        intro x hx
        have := (ordInsert_perm le a t).mem_iff.mp hx
        rcases List.mem_cons.mp this with rfl | hx'
        · exact hba
        · exact (List.pairwise_cons.mp h).1 x hx'

theorem sortByB_pairwise {α : Type} (le : α → α → Bool)
    (htot : ∀ a b, le a b || le b a) (htr : ∀ a b c, le a b → le b c → le a c) :
    ∀ l : List α, (sortByB le l).Pairwise (fun x y => le x y = true)
  | [] => List.Pairwise.nil
  | a :: t => ordInsert_pairwise le htot htr a _ (sortByB_pairwise le htot htr t)

theorem sorted_perm_eq {α : Type} (le : α → α → Bool) :
    ∀ (l₁ l₂ : List α), l₁.Perm l₂ →
      l₁.Pairwise (fun x y => le x y = true) → l₂.Pairwise (fun x y => le x y = true) →
      (∀ a ∈ l₁, ∀ b ∈ l₁, le a b → le b a → a = b) → l₁ = l₂
  | [], l₂, hp, _, _, _ => (hp.nil_eq).symm ▸ rfl
  | a :: t₁, l₂, hp, hs₁, hs₂, han => by
      match l₂ with
      | [] => exact absurd hp.symm.nil_eq (by simp)
      | b :: t₂ =>
        have hab : a = b := by
          by_cases hcase : a = b
          · exact hcase
          · have hamem : a ∈ b :: t₂ := hp.mem_iff.mp (by simp)
            have hbmem : b ∈ a :: t₁ := hp.symm.mem_iff.mp (by simp)
            have hat₂ : a ∈ t₂ := by
              rcases List.mem_cons.mp hamem with h | h
              · exact absurd h hcase
              · exact h
            have hbt₁ : b ∈ t₁ := by
              rcases List.mem_cons.mp hbmem with h | h
              · exact absurd h.symm hcase
              · exact h
            have h1 : le a b := (List.pairwise_cons.mp hs₁).1 b hbt₁
            have h2 : le b a := (List.pairwise_cons.mp hs₂).1 a hat₂
            exact han a (by simp) b (by simp [hbt₁]) h1 h2
        subst hab
        have hp' := hp.cons_inv
        have := sorted_perm_eq le t₁ t₂ hp' (List.pairwise_cons.mp hs₁).2 (List.pairwise_cons.mp hs₂).2
          (fun x hx y hy => han x (by simp [hx]) y (by simp [hy]))
        rw [this]

-- ================================================================
-- Lemmas about the lexicographic string comparison

theorem char_eq_of_toNat_eq (a b : Char) (h : a.toNat = b.toNat) : a = b := by
  unfold Char.toNat at h
  have hv : a.val = b.val := by
    cases hu : a.val
    cases hu2 : b.val
    simp_all [UInt32.toNat]
    exact congrArg UInt32.mk (BitVec.toNat_injective h)
  exact Char.ext hv

theorem listLe_total : ∀ a b : List Char, listLe a b || listLe b a
  | [], _ => by simp [listLe]
  | _ :: _, [] => by simp [listLe]
  | a :: s, b :: t => by
      simp only [listLe]
      rcases Nat.lt_trichotomy a.toNat b.toNat with h | h | h
      · simp [h]
      · have h1 : ¬ a.toNat < b.toNat := by omega
        have h2 : ¬ b.toNat < a.toNat := by omega
        simp only [h1, h2, if_false, if_neg h1, if_neg h2]
        simpa using listLe_total s t
      · have h1 : ¬ a.toNat < b.toNat := by omega
        simp [h1, h]

theorem listLe_trans : ∀ a b c : List Char, listLe a b → listLe b c → listLe a c
  | [], _, _, _, _ => by simp [listLe]
  | _ :: _, [], _, h, _ => by simp [listLe] at h
  | _ :: _, _ :: _, [], _, h => by simp [listLe] at h
  | a :: s, b :: t, c :: u, h1, h2 => by
      simp only [listLe] at h1 h2 ⊢
      rcases Nat.lt_trichotomy a.toNat b.toNat with hab | hab | hab
      · rcases Nat.lt_trichotomy b.toNat c.toNat with hbc | hbc | hbc
        · simp [show a.toNat < c.toNat by omega]
        · simp [show a.toNat < c.toNat by omega]
        · simp [show ¬ b.toNat < c.toNat by omega, hbc] at h2
      · rcases Nat.lt_trichotomy b.toNat c.toNat with hbc | hbc | hbc
        · simp [show a.toNat < c.toNat by omega]
        · simp only [show ¬ a.toNat < b.toNat by omega, show ¬ b.toNat < a.toNat by omega,
            if_false, ite_false, if_neg] at h1
          simp only [show ¬ b.toNat < c.toNat by omega, show ¬ c.toNat < b.toNat by omega,
            if_false, ite_false, if_neg] at h2
          have h3 : ¬ a.toNat < c.toNat := by omega
          have h4 : ¬ c.toNat < a.toNat := by omega
          simp only [h3, h4, if_false, if_neg]
          exact listLe_trans s t u h1 h2
        · simp [show ¬ b.toNat < c.toNat by omega, hbc] at h2
      · simp [show ¬ a.toNat < b.toNat by omega, hab] at h1

theorem listLe_antisymm : ∀ a b : List Char, listLe a b → listLe b a → a = b
  | [], [], _, _ => rfl
  | [], _ :: _, _, h => by simp [listLe] at h
  | _ :: _, [], h, _ => by simp [listLe] at h
  | a :: s, b :: t, h1, h2 => by
      simp only [listLe] at h1 h2
      rcases Nat.lt_trichotomy a.toNat b.toNat with hab | hab | hab
      · simp [show ¬ b.toNat < a.toNat by omega, hab] at h2
      · simp only [show ¬ a.toNat < b.toNat by omega, show ¬ b.toNat < a.toNat by omega,
          if_false, if_neg] at h1 h2
        have hc : a = b := char_eq_of_toNat_eq a b hab
        rw [hc, listLe_antisymm s t h1 h2]
      · simp [show ¬ a.toNat < b.toNat by omega, hab] at h1

theorem strLeB_total (a b : String) : strLeB a b || strLeB b a := listLe_total a.data b.data

theorem strLeB_trans (a b c : String) : strLeB a b → strLeB b c → strLeB a c :=
  listLe_trans a.data b.data c.data

theorem strLeB_antisymm (a b : String) : strLeB a b → strLeB b a → a = b := by
  intro h1 h2
  have h := listLe_antisymm a.data b.data h1 h2
  cases a
  cases b
  exact congrArg String.mk h

-- ================================================================
-- Claim theorems

open sl_ast dwarf riscverifier veriv_ast translator in
/-- C2: on the DWARF context mapping global `g` to a primitive 4-byte type
at `0x1000`, Pass 1 (`VExprTypeInference`) rewrites `Ident("g", Unknown)`
to `Deref(Ident("g", Bv(32)))`, Pass 2 (`RenameGlobals`) rewrites that to
`Deref(Bv{0x1000, Bv(32)})`, and Pass 3 (`ConstantFolder`) rewrites that
to `Ident("mem_access_4096", Bv(32))`. -/
theorem C2_global_primitive_deref_pipeline :
    pass1_visit_vexpr gctx "main" [] 1 (VExpr.Ident "g" VType.Unknown) =
      some (VExpr.OpApp ValueOp.Deref [VExpr.Ident "g" (VType.Bv 32)] (VType.Bv 32)) ∧
    pass2_visit_vexpr gctx
        (VExpr.OpApp ValueOp.Deref [VExpr.Ident "g" (VType.Bv 32)] (VType.Bv 32)) =
      VExpr.OpApp ValueOp.Deref [VExpr.Bv 0x1000 (VType.Bv 32)] (VType.Bv 32) ∧
    pass3_visit_vexpr gctx
        (VExpr.OpApp ValueOp.Deref [VExpr.Bv 0x1000 (VType.Bv 32)] (VType.Bv 32)) =
      some (VExpr.Ident "mem_access_4096" (VType.Bv 32)) := by
  refine ⟨?_, ?_, ?_⟩
  · simp [pass1_visit_vexpr, pass1_rewrite_ident, gctx, constants.PC_VAR, constants.RETURNED_FLAG,
      constants.PRIV_VAR, constants.MEM_VAR_B, constants.MEM_VAR_H, constants.MEM_VAR_W,
      constants.MEM_VAR_D, constants.A0, constants.SP, constants.RA, DwarfCtx.func_sig, alistGet,
      DwarfCtx.global_var_type, DwarfCtx.global_var, from_dwarf_type, constants.BYTE_SIZE]
  · rfl
  · rfl

open veriv_ast in
/-- C5: the VIR `ConstantPropagator` folds `BVOp::RightShift` — the
logical right shift, emitted as `bv_l_right_shift` — with the
sign-replicating `((x as i64) >> s) as u64` semantics, and folds
`BVOp::ARightShift` — the arithmetic right shift, emitted as
`bv_a_right_shift` — with the zero-filling `u64` shift, the opposite of
what the claim (and the operators' own meaning) state: on the literal
`2^63 >> 1` the logical shift should give `2^62`, but the code yields
`2^63 + 2^62`. -/
theorem C5_right_shift_folds_are_swapped :
    ConstantPropagator.constant_fold
        (Expr.OpApp (Op.Bv BVOp.RightShift)
          [Expr.bv_lit (2 ^ 63) 64, Expr.bv_lit 1 64] (Ty.Bv 64)) =
      some (Expr.bv_lit (2 ^ 63 + 2 ^ 62) 64) ∧
    ConstantPropagator.constant_fold
        (Expr.OpApp (Op.Bv BVOp.ARightShift)
          [Expr.bv_lit (2 ^ 63) 64, Expr.bv_lit 1 64] (Ty.Bv 64)) =
      some (Expr.bv_lit (2 ^ 62) 64) ∧
    uclid.bv_app_to_string BVOp.RightShift (some "x") (some "s") =
      some "bv_l_right_shift(s, x)" ∧
    uclid.bv_app_to_string BVOp.ARightShift (some "x") (some "s") =
      some "bv_a_right_shift(s, x)" := by
  refine ⟨?_, ?_, rfl, rfl⟩
  · rfl
  · rfl

open sl_ast riscverifier in
/-- C6: `helpers::mask` iterates `for i in 0..63`, so bit 63 is never set:
`mask(63, 0)` is `2^63 - 1` instead of the claimed all-ones mask, and
folding `Slice{lo: 0, hi: 63}` over the literal `2^63` (bit 63 set)
produces the value `0` — the claimed mask with ones exactly in positions
0..63 would keep bit 63 and give `2^63`.  The result type
`Bv(args[0].width + args[1].width)` is as the claim states. -/
theorem C6_slice_mask_drops_bit_63 :
    helpers.mask 63 0 = 2 ^ 63 - 1 ∧
    constant_fold gctx
        (VExpr.OpApp (ValueOp.Slice 0 63)
          [VExpr.Bv (2 ^ 63) (VType.Bv 64), VExpr.Bv 0 (VType.Bv 64)] (VType.Bv 64)) =
      some (VExpr.Bv 0 (VType.Bv 128)) ∧
    2 ^ 63 &&& (2 ^ 64 - 1) = 2 ^ 63 ∧
    2 ^ 63 &&& helpers.mask 63 0 = 0 := by
  refine ⟨rfl, rfl, rfl, rfl⟩

open sl_ast dwarf riscverifier veriv_ast in
/-- C10: both constant folders compute `Add`/`Sub`/`Mul` and the three
shifts over bit-vector literals as the exact `u64` machine operation
(wrap-around only at `2^64`) — the VIR `RightShift`/`ARightShift` folds
with the right-shift semantics exactly as the source writes them — and
never reduce the folded value modulo `2^w` of the operand's declared
width: the result keeps operand 0's width with the unreduced value, and
in particular `Add(Bv{200, Bv(8)}, Bv{100, Bv(8)})` folds to
`Bv{300, Bv(8)}` with `300 ≥ 2^8` in both the SIR `ConstantFolder` and
the VIR `ConstantPropagator`. -/
theorem C10_folding_is_u64_exact_not_width_reduced :
    (∀ (d : DwarfCtx) (a b w : Nat) (t : VType),
      constant_fold d (VExpr.OpApp ValueOp.Add
          [VExpr.Bv a (VType.Bv w), VExpr.Bv b (VType.Bv w)] t) =
        some (VExpr.Bv (u64_add a b) (VType.Bv w))) ∧
    (∀ (d : DwarfCtx) (a b w : Nat) (t : VType),
      constant_fold d (VExpr.OpApp ValueOp.Sub
          [VExpr.Bv a (VType.Bv w), VExpr.Bv b (VType.Bv w)] t) =
        some (VExpr.Bv (u64_sub a b) (VType.Bv w))) ∧
    (∀ (d : DwarfCtx) (a b w : Nat) (t : VType),
      constant_fold d (VExpr.OpApp ValueOp.Mul
          [VExpr.Bv a (VType.Bv w), VExpr.Bv b (VType.Bv w)] t) =
        some (VExpr.Bv (u64_mul a b) (VType.Bv w))) ∧
    (∀ (d : DwarfCtx) (a b w : Nat) (t : VType),
      constant_fold d (VExpr.OpApp ValueOp.LeftShift
          [VExpr.Bv a (VType.Bv w), VExpr.Bv b (VType.Bv w)] t) =
        some (VExpr.Bv (u64_shl a b) (VType.Bv w))) ∧
    (∀ (d : DwarfCtx) (a b w : Nat) (t : VType),
      constant_fold d (VExpr.OpApp ValueOp.URightShift
          [VExpr.Bv a (VType.Bv w), VExpr.Bv b (VType.Bv w)] t) =
        some (VExpr.Bv (u64_lshr a b) (VType.Bv w))) ∧
    (∀ (d : DwarfCtx) (a b w : Nat) (t : VType),
      constant_fold d (VExpr.OpApp ValueOp.RightShift
          [VExpr.Bv a (VType.Bv w), VExpr.Bv b (VType.Bv w)] t) =
        some (VExpr.Bv (u64_ashr a b) (VType.Bv w))) ∧
    (∀ (a b w : Nat) (t : Ty),
      ConstantPropagator.constant_fold (Expr.OpApp (Op.Bv BVOp.Add)
          [Expr.bv_lit a w, Expr.bv_lit b w] t) =
        some (Expr.bv_lit (u64_add a b) w)) ∧
    (∀ (a b w : Nat) (t : Ty),
      ConstantPropagator.constant_fold (Expr.OpApp (Op.Bv BVOp.Sub)
          [Expr.bv_lit a w, Expr.bv_lit b w] t) =
        some (Expr.bv_lit (u64_sub a b) w)) ∧
    (∀ (a b w : Nat) (t : Ty),
      ConstantPropagator.constant_fold (Expr.OpApp (Op.Bv BVOp.Mul)
          [Expr.bv_lit a w, Expr.bv_lit b w] t) =
        some (Expr.bv_lit (u64_mul a b) w)) ∧
    (∀ (a b w : Nat) (t : Ty),
      ConstantPropagator.constant_fold (Expr.OpApp (Op.Bv BVOp.LeftShift)
          [Expr.bv_lit a w, Expr.bv_lit b w] t) =
        some (Expr.bv_lit (u64_shl a b) w)) ∧
    (∀ (a b w : Nat) (t : Ty),
      ConstantPropagator.constant_fold (Expr.OpApp (Op.Bv BVOp.RightShift)
          [Expr.bv_lit a w, Expr.bv_lit b w] t) =
        some (Expr.bv_lit (u64_ashr a b) w)) ∧
    (∀ (a b w : Nat) (t : Ty),
      ConstantPropagator.constant_fold (Expr.OpApp (Op.Bv BVOp.ARightShift)
          [Expr.bv_lit a w, Expr.bv_lit b w] t) =
        some (Expr.bv_lit (u64_lshr a b) w)) ∧
    constant_fold gctx (VExpr.OpApp ValueOp.Add
        [VExpr.Bv 200 (VType.Bv 8), VExpr.Bv 100 (VType.Bv 8)] (VType.Bv 8)) =
      some (VExpr.Bv 300 (VType.Bv 8)) ∧
    ConstantPropagator.constant_fold (Expr.OpApp (Op.Bv BVOp.Add)
        [Expr.bv_lit 200 8, Expr.bv_lit 100 8] (Ty.Bv 8)) =
      some (Expr.bv_lit 300 8) ∧
    2 ^ 8 ≤ 300 := by
  refine ⟨?_, ?_, ?_, ?_, ?_, ?_, ?_, ?_, ?_, ?_,
    fun a b w t => rfl, fun a b w t => rfl, rfl, rfl, by omega⟩ <;>
    intros <;>
    simp [riscverifier.constant_fold, riscverifier.constant_fold_list,
      ConstantPropagator.constant_fold, ConstantPropagator.constant_fold_list,
      VExpr.is_lit, VExpr.get_lit_value, VExpr.typ, Expr.is_lit, Expr.get_lit_value,
      Expr.bv_lit, Expr.get_expect_bv_width, Lit.get_expect_bv_width]

open veriv_ast sl_ast translator in
/-- C1: after building `f` — whose single block writes `t0` and which
calls the ignored `g` declared with `Modifies({a0})` in the spec map — the
computed modifies set of `f` is `{pc, returned, t0}` and does NOT contain
`a0`: the source looks up the modifies specification of `func_name` (the
caller `f`, which has no spec entry) instead of the callee `g`, so the
ignored callee's declared `Modifies({a0})` is silently dropped. -/
theorem C1_ignored_callee_spec_modset_dropped :
    gen_func_mod_set c1_bbs ["g"] c1_specs [] "f" c1_bodies [512] =
      Except.ok {"pc", "returned", "t0"} ∧
    "a0" ∉ ({"pc", "returned", "t0"} : Finset String) ∧
    mod_set_from_spec_map c1_specs "g" = some {"a0"} ∧
    mod_set_from_spec_map c1_specs "f" = none := by
  refine ⟨by decide, by decide, by decide, by decide⟩

open veriv_ast uclid in
/-- C9: `Model::add_func_model` appends the model exactly when no existing
entry carries the same signature name, leaves the sequence unchanged when
one does (first wins), and therefore preserves pairwise-distinct names. -/
theorem C9_add_func_model_first_wins (m : Model) (fm : FuncModel) :
    ((m.func_models.find? (fun fm_ => fm_.sig.name = fm.sig.name)) = none →
      (m.add_func_model fm).func_models = m.func_models ++ [fm]) ∧
    ((m.func_models.find? (fun fm_ => fm_.sig.name = fm.sig.name)).isSome →
      (m.add_func_model fm).func_models = m.func_models) ∧
    ((m.func_models.map (fun f => f.sig.name)).Nodup →
      ((m.add_func_model fm).func_models.map (fun f => f.sig.name)).Nodup) := by
  refine ⟨?_, ?_, ?_⟩
  · intro h
    simp [Model.add_func_model, h]
  · intro h
    rw [Option.isSome_iff_exists] at h
    obtain ⟨x, hx⟩ := h
    simp [Model.add_func_model, hx]
  · intro hnd
    by_cases h : (m.func_models.find? (fun fm_ => fm_.sig.name = fm.sig.name)) = none
    · have habs : fm.sig.name ∉ m.func_models.map (fun f => f.sig.name) := by
        intro hmem
        rcases List.mem_map.mp hmem with ⟨f, hf, hname⟩
        have := List.find?_eq_none.mp h f hf
        simp [hname] at this
      have hmodels : (m.add_func_model fm).func_models = m.func_models ++ [fm] := by
        simp [Model.add_func_model, h]
      rw [hmodels, List.map_append, List.nodup_append]
      refine ⟨hnd, List.nodup_singleton _, ?_⟩
      intro x hx hy
      simp only [List.map_cons, List.map_nil, List.mem_singleton] at hy
      subst hy
      exact habs hx
    · have h2 : (m.func_models.find? (fun fm_ => fm_.sig.name = fm.sig.name)).isSome := by
        rw [Option.isSome_iff_ne_none]
        exact h
      rw [Option.isSome_iff_exists] at h2
      obtain ⟨x, hx⟩ := h2
      simpa [Model.add_func_model, hx] using hnd

open veriv_ast uclid in
/-- Witness for C9 at a concrete model: appending to the empty model,
ignoring a duplicate, and preserving name distinctness. -/
theorem C9_add_func_model_first_wins_witness :
    ((Model.new "m").add_func_model c9_fm).func_models =
      (Model.new "m").func_models ++ [c9_fm] ∧
    ((((Model.new "m").add_func_model c9_fm).add_func_model c9_fm).func_models =
      ((Model.new "m").add_func_model c9_fm).func_models) ∧
    ((((Model.new "m").add_func_model c9_fm).func_models.map (fun f => f.sig.name)).Nodup) := by
  refine ⟨(C9_add_func_model_first_wins (Model.new "m") c9_fm).1 rfl,
    (C9_add_func_model_first_wins ((Model.new "m").add_func_model c9_fm) c9_fm).2.1 rfl,
    (C9_add_func_model_first_wins (Model.new "m") c9_fm).2.2 (by simp [Model.new])⟩

set_option maxRecDepth 4000 in
open veriv_ast uclid in
/-- Counterexample for C4: with every input identical — the same model,
DWARF context, ignored and verify sets, XLEN and prelude — two valid
iteration orders of the one function model's modifies hash set
(`{a0, ra}`) produce different module texts, because
`func_model_to_string` joins `fm.sig.mod_set.iter()` without sorting. -/
theorem C4_counterexample_modifies_order_leaks :
    (["a0", "ra"] : List String).toFinset = c4_fm.sig.mod_set ∧
    (["ra", "a0"] : List String).toFinset = c4_fm.sig.mod_set ∧
    model_to_string 64 c4_model c4_dwarf [] ["f"] "PRELUDE" [] [["a0", "ra"]] ≠
      model_to_string 64 c4_model c4_dwarf [] ["f"] "PRELUDE" [] [["ra", "a0"]] := by
  refine ⟨by decide, by decide, by decide⟩

open veriv_ast uclid in
/-- C4 (amended): the state-variable section is iteration-order
independent — `gen_var_defns` sorts the declarations by name, so any two
iteration orders of the `vars` hash set with pairwise-distinct names
produce the same text, and `model_to_string` agrees on them — but the
modifies clauses are not: the module text is a function of the mod-set
iteration orders passed through verbatim. -/
theorem C4_var_section_order_independent (xlen : Nat) (model : Model)
    (d : dwarf.DwarfCtx) (ignored_funcs verify_funcs : List String)
    (prelude : String) (v1 v2 : List Var) (mod_set_iters : List (List String))
    (hperm : v1.Perm v2) (hnd : (v1.map Var.name).Nodup) :
    gen_var_defns v1 = gen_var_defns v2 ∧
    model_to_string xlen model d ignored_funcs verify_funcs prelude v1 mod_set_iters =
      model_to_string xlen model d ignored_funcs verify_funcs prelude v2 mod_set_iters := by
  have htot : ∀ a b : Var, strLeB a.name b.name || strLeB b.name a.name :=
    fun a b => strLeB_total a.name b.name
  have htr : ∀ a b c : Var,
      strLeB a.name b.name → strLeB b.name c.name → strLeB a.name c.name :=
    fun a b c => strLeB_trans a.name b.name c.name
  have hsort : sortByB (fun a b => strLeB a.name b.name) v1 =
      sortByB (fun a b => strLeB a.name b.name) v2 := by
    apply sorted_perm_eq (fun a b => strLeB a.name b.name)
    · exact (sortByB_perm _ v1).trans (hperm.trans (sortByB_perm _ v2).symm)
    · exact sortByB_pairwise _ htot htr v1
    · exact sortByB_pairwise _ htot htr v2
    · intro a ha b hb hab hba
      have ha' : a ∈ v1 := (sortByB_perm _ v1).mem_iff.mp ha
      have hb' : b ∈ v1 := (sortByB_perm _ v1).mem_iff.mp hb
      exact List.inj_on_of_nodup_map hnd ha' hb'
        (strLeB_antisymm a.name b.name hab hba)
  have hdefns : gen_var_defns v1 = gen_var_defns v2 := by
    unfold gen_var_defns
    rw [hsort]
  refine ⟨hdefns, ?_⟩
  unfold model_to_string
  rw [hdefns]

open veriv_ast uclid in
/-- Witness for the amended C4: two iteration orders of a two-variable
state set give the same variable section and the same module text. -/
theorem C4_var_section_order_independent_witness :
    gen_var_defns [⟨"sp", Ty.Bv 64⟩, ⟨"pc", Ty.Bv 64⟩] =
      gen_var_defns [⟨"pc", Ty.Bv 64⟩, ⟨"sp", Ty.Bv 64⟩] ∧
    model_to_string 64 c4_model c4_dwarf [] ["f"] "PRELUDE"
        [⟨"sp", Ty.Bv 64⟩, ⟨"pc", Ty.Bv 64⟩] [["a0", "ra"]] =
      model_to_string 64 c4_model c4_dwarf [] ["f"] "PRELUDE"
        [⟨"pc", Ty.Bv 64⟩, ⟨"sp", Ty.Bv 64⟩] [["a0", "ra"]] :=
  C4_var_section_order_independent 64 c4_model c4_dwarf [] ["f"] "PRELUDE"
    [⟨"sp", Ty.Bv 64⟩, ⟨"pc", Ty.Bv 64⟩] [⟨"pc", Ty.Bv 64⟩, ⟨"sp", Ty.Bv 64⟩]
    [["a0", "ra"]] (List.Perm.swap _ _ _) (by decide)

open sl_ast dwarf riscverifier in
/-- Counterexample for C7: on the context with global `g`, one run of
Pass 1 on `g == 0bv32` wraps `g` in one `Deref`, and a second run wraps
the result in another, so running the pass twice differs from running it
once. -/
theorem C7_counterexample_pass1_reinserts_deref :
    run_pass1 gctx "main" c7_b = some c7_once ∧
    run_pass1 gctx "main" c7_once = some c7_twice ∧
    c7_once ≠ c7_twice := by
  refine ⟨?_, ?_, by simp [c7_once, c7_twice]⟩
  · simp [run_pass1, c7_b, c7_once, bexpr_size, vexpr_size, vexpr_size_list,
      pass1_visit_bexpr, pass1_visit_vexprs, pass1_visit_vexpr, pass1_rewrite_ident,
      pass1_rewrite_opapp, VType.infer_op_type, VType.from_ast_type, gctx,
      constants.PC_VAR, constants.RETURNED_FLAG, constants.PRIV_VAR,
      constants.MEM_VAR_B, constants.MEM_VAR_H, constants.MEM_VAR_W, constants.MEM_VAR_D,
      constants.A0, constants.SP, constants.RA, DwarfCtx.func_sig, alistGet,
      DwarfCtx.global_var_type, DwarfCtx.global_var, from_dwarf_type, constants.BYTE_SIZE,
      VExpr.typ, VType.beq]
  · simp [run_pass1, c7_once, c7_twice, bexpr_size, vexpr_size, vexpr_size_list,
      pass1_visit_bexpr, pass1_visit_vexprs, pass1_visit_vexpr, pass1_rewrite_ident,
      pass1_rewrite_opapp, VType.infer_op_type, VType.from_ast_type, gctx,
      constants.PC_VAR, constants.RETURNED_FLAG, constants.PRIV_VAR,
      constants.MEM_VAR_B, constants.MEM_VAR_H, constants.MEM_VAR_W, constants.MEM_VAR_D,
      constants.A0, constants.SP, constants.RA, DwarfCtx.func_sig, alistGet,
      DwarfCtx.global_var_type, DwarfCtx.global_var, from_dwarf_type, constants.BYTE_SIZE,
      VExpr.typ, VType.beq]


section Pass1Idempotence

open sl_ast dwarf riscverifier

theorem pass1_rewrite_ident_shape (d : DwarfCtx) (fname : String) (tm : TypMap)
    (n : String) (t : VType) (hng : d.global_var_type n = none) :
    pass1_rewrite_ident d fname tm n t =
        some (VExpr.Ident n (VType.Bv (d.xlen % 2 ^ 16))) ∨
    pass1_rewrite_ident d fname tm n t = some (VExpr.Ident n t) := by
  unfold pass1_rewrite_ident
  simp only [system_model.pc_type, system_model.bv_type, system_model.returned_type,
    system_model.priv_type, system_model.mem_b_type, system_model.mem_h_type,
    system_model.mem_w_type, system_model.mem_d_type, VType.from_ast_type,
    Option.map_some', Option.bind_eq_bind, Option.some_bind, hng]
  repeat' split
  all_goals simp [hng]

theorem pass1_rewrite_opapp_default (op : ValueOp) (rw : List VExpr) (e' : VExpr)
    (hop : (match op with
            | ValueOp.GetField => false
            | ValueOp.ArrayIndex => false
            | _ => true) = true)
    (h : pass1_rewrite_opapp op rw = some e') :
    ∃ w, VType.infer_op_type op rw = some w ∧ e' = VExpr.OpApp op rw w := by
  cases hinf : VType.infer_op_type op rw with
  | none => simp [pass1_rewrite_opapp, hinf] at h
  | some w =>
      cases op <;> simp at hop <;>
        (first
          | (refine ⟨w, rfl, ?_⟩
             simpa [pass1_rewrite_opapp, hinf] using h.symm))

mutual

theorem pass1_visit_vexpr_idem (d : DwarfCtx) (fname : String) (tm : TypMap)
    (fuel fuel' : Nat) : ∀ (e e' : VExpr),
    pass1_safe d e = true →
    pass1_visit_vexpr d fname tm fuel e = some e' →
    pass1_safe d e' = true ∧ pass1_visit_vexpr d fname tm fuel' e' = some e'
  | VExpr.Bv v t, e', _, h => by
      simp only [pass1_visit_vexpr, Option.some.injEq] at h
      subst h
      exact ⟨by simp [pass1_safe], by simp [pass1_visit_vexpr]⟩
  | VExpr.Int v t, e', _, h => by
      simp only [pass1_visit_vexpr, Option.some.injEq] at h
      subst h
      exact ⟨by simp [pass1_safe], by simp [pass1_visit_vexpr]⟩
  | VExpr.Bool v t, e', _, h => by
      simp only [pass1_visit_vexpr, Option.some.injEq] at h
      subst h
      exact ⟨by simp [pass1_safe], by simp [pass1_visit_vexpr]⟩
  | VExpr.Ident n t, e', hs, h => by
      have hng : d.global_var_type n = none := by
        simpa [pass1_safe, Option.isNone_iff_eq_none] using hs
      have h' : pass1_rewrite_ident d fname tm n t = some e' := by
        simpa [pass1_visit_vexpr] using h
      rcases pass1_rewrite_ident_shape d fname tm n t hng with hcase | hcase
      · have he : e' = VExpr.Ident n (VType.Bv (d.xlen % 2 ^ 16)) :=
          Option.some.inj (h'.symm.trans hcase)
        subst he
        refine ⟨by simp [pass1_safe, hng], ?_⟩
        rcases pass1_rewrite_ident_shape d fname tm n (VType.Bv (d.xlen % 2 ^ 16)) hng with
          h2 | h2 <;>
          (simp only [pass1_visit_vexpr]
           simpa using h2)
      · have he : e' = VExpr.Ident n t := Option.some.inj (h'.symm.trans hcase)
        subst he
        exact ⟨by simp [pass1_safe, hng], by simp [pass1_visit_vexpr, h']⟩
  | VExpr.OpApp op exprs t, e', hs, h => by
      simp only [pass1_safe] at hs
      rw [Bool.and_eq_true] at hs
      cases hrw : pass1_visit_vexprs d fname tm fuel exprs with
      | none => simp [pass1_visit_vexpr, hrw] at h
      | some rw =>
          have h2 : pass1_rewrite_opapp op rw = some e' := by
            simpa [pass1_visit_vexpr, hrw] using h
          obtain ⟨hsafe_rw, hvisits'⟩ :=
            pass1_visit_vexprs_idem d fname tm fuel fuel' exprs rw hs.2 hrw
          obtain ⟨w, hinf, rfl⟩ := pass1_rewrite_opapp_default op rw e' hs.1 h2
          refine ⟨?_, ?_⟩
          · simp only [pass1_safe]
            rw [Bool.and_eq_true]
            exact ⟨hs.1, hsafe_rw⟩
          · simp [pass1_visit_vexpr, hvisits', h2]
  | VExpr.FuncApp f args t, e', hs, h => by simp [pass1_safe] at hs
  termination_by e => sizeOf e

theorem pass1_visit_vexprs_idem (d : DwarfCtx) (fname : String) (tm : TypMap)
    (fuel fuel' : Nat) : ∀ (l l' : List VExpr),
    pass1_safe_list d l = true →
    pass1_visit_vexprs d fname tm fuel l = some l' →
    pass1_safe_list d l' = true ∧ pass1_visit_vexprs d fname tm fuel' l' = some l'
  | [], l', _, h => by
      simp only [pass1_visit_vexprs, Option.some.injEq] at h
      subst h
      exact ⟨by simp [pass1_safe_list], by simp [pass1_visit_vexprs]⟩
  | e :: es, l', hs, h => by
      simp only [pass1_safe_list] at hs
      rw [Bool.and_eq_true] at hs
      cases he : pass1_visit_vexpr d fname tm fuel e with
      | none => simp [pass1_visit_vexprs, he] at h
      | some e1 =>
          cases hes : pass1_visit_vexprs d fname tm fuel es with
          | none => simp [pass1_visit_vexprs, he, hes] at h
          | some es1 =>
              have hl : l' = e1 :: es1 := by
                have hcopy := h
                simp [pass1_visit_vexprs, he, hes] at hcopy
                exact hcopy.symm
              subst hl
              obtain ⟨hse, hve⟩ :=
                pass1_visit_vexpr_idem d fname tm fuel fuel' e e1 hs.1 he
              obtain ⟨hses, hves⟩ :=
                pass1_visit_vexprs_idem d fname tm fuel fuel' es es1 hs.2 hes
              exact ⟨by simp [pass1_safe_list, hse, hses],
                by simp [pass1_visit_vexprs, hve, hves]⟩
  termination_by l => sizeOf l

end

mutual

theorem pass1_visit_bexpr_idem (d : DwarfCtx) (fname : String) (fuel fuel' : Nat) :
    ∀ (b : BExpr) (tm : TypMap) (p : BExpr × TypMap),
    pass1_safe_bexpr d b = true →
    pass1_visit_bexpr d fname fuel tm b = some p →
    pass1_safe_bexpr d p.1 = true ∧ pass1_visit_bexpr d fname fuel' tm p.1 = some p
  | BExpr.Bool b, tm, p, _, h => by
      simp only [pass1_visit_bexpr, Option.some.injEq] at h
      subst h
      exact ⟨by simp [pass1_safe_bexpr], by simp [pass1_visit_bexpr]⟩
  | BExpr.BOpApp bop exprs, tm, p, hs, h => by
      simp only [pass1_safe_bexpr] at hs
      cases htm1 : pass1_boolop_update bop tm with
      | none => simp [pass1_visit_bexpr, htm1] at h
      | some tm1 =>
          cases hrw : pass1_visit_bexprs d fname fuel tm1 exprs with
          | none => simp [pass1_visit_bexpr, htm1, hrw] at h
          | some q =>
              have hp : p = (BExpr.BOpApp bop q.1, q.2) := by
                have hcopy := h
                simp [pass1_visit_bexpr, htm1, hrw] at hcopy
                exact hcopy.symm
              subst hp
              obtain ⟨hsq, hvq⟩ :=
                pass1_visit_bexprs_idem d fname fuel fuel' exprs tm1 q hs hrw
              refine ⟨by simpa [pass1_safe_bexpr] using hsq, ?_⟩
              simp [pass1_visit_bexpr, htm1, hvq]
  | BExpr.COpApp cop vexprs, tm, p, hs, h => by
      simp only [pass1_safe_bexpr] at hs
      cases hrw : pass1_visit_vexprs d fname tm fuel vexprs with
      | none => simp [pass1_visit_bexpr, hrw] at h
      | some rw =>
          have hp : p = (BExpr.COpApp cop rw, tm) := by
            have hcopy := h
            simp [pass1_visit_bexpr, hrw] at hcopy
            exact hcopy.symm
          subst hp
          obtain ⟨hsr, hvr⟩ :=
            pass1_visit_vexprs_idem d fname tm fuel fuel' vexprs rw hs hrw
          exact ⟨by simpa [pass1_safe_bexpr] using hsr,
            by simp [pass1_visit_bexpr, hvr]⟩
  termination_by b => sizeOf b

theorem pass1_visit_bexprs_idem (d : DwarfCtx) (fname : String) (fuel fuel' : Nat) :
    ∀ (l : List BExpr) (tm : TypMap) (p : List BExpr × TypMap),
    pass1_safe_bexprs d l = true →
    pass1_visit_bexprs d fname fuel tm l = some p →
    pass1_safe_bexprs d p.1 = true ∧ pass1_visit_bexprs d fname fuel' tm p.1 = some p
  | [], tm, p, _, h => by
      simp only [pass1_visit_bexprs, Option.some.injEq] at h
      subst h
      exact ⟨by simp [pass1_safe_bexprs], by simp [pass1_visit_bexprs]⟩
  | e :: es, tm, p, hs, h => by
      simp only [pass1_safe_bexprs] at hs
      rw [Bool.and_eq_true] at hs
      cases he : pass1_visit_bexpr d fname fuel tm e with
      | none => simp [pass1_visit_bexprs, he] at h
      | some q =>
          cases hes : pass1_visit_bexprs d fname fuel q.2 es with
          | none => simp [pass1_visit_bexprs, he, hes] at h
          | some r =>
              have hp : p = (q.1 :: r.1, r.2) := by
                have hcopy := h
                simp [pass1_visit_bexprs, he, hes] at hcopy
                exact hcopy.symm
              subst hp
              obtain ⟨hsq, hvq⟩ :=
                pass1_visit_bexpr_idem d fname fuel fuel' e tm q hs.1 he
              obtain ⟨hsr, hvr⟩ :=
                pass1_visit_bexprs_idem d fname fuel fuel' es q.2 r hs.2 hes
              refine ⟨?_, ?_⟩
              · simp only [pass1_safe_bexprs]
                rw [Bool.and_eq_true]
                exact ⟨hsq, hsr⟩
              · simp [pass1_visit_bexprs, hvq, hvr]
  termination_by l => sizeOf l

end

end Pass1Idempotence

open sl_ast dwarf riscverifier in
/-- C7 (amended): Pass 1 (`VExprTypeInference`) is not idempotent in
general — re-running it wraps already rewritten global identifiers in a
second `Deref` — but it is idempotent on boolean spec expressions all of
whose value expressions avoid the rewriting hooks: no identifier naming a
DWARF global, no struct-field select or array-index application, and no
function application. -/
theorem C7_pass1_idempotent_on_safe_terms (d : DwarfCtx) (fname : String)
    (b b1 : BExpr) (hs : pass1_safe_bexpr d b = true)
    (h : run_pass1 d fname b = some b1) :
    run_pass1 d fname b1 = some b1 := by
  unfold run_pass1 at h ⊢
  cases hv : pass1_visit_bexpr d fname (bexpr_size b) [] b with
  | none => rw [hv] at h; simp at h
  | some p =>
      rw [hv] at h
      simp only [Option.map_some', Option.some.injEq] at h
      subst h
      obtain ⟨hsafe1, hsecond⟩ :=
        pass1_visit_bexpr_idem d fname (bexpr_size b) (bexpr_size p.1) b [] p hs hv
      simp [hsecond]

open sl_ast dwarf riscverifier in
/-- Witness for the amended C7: the comparison `x == 0bv64` over the
non-global identifier `x` is `pass1_safe`, Pass 1 leaves it unchanged, and
a second run reproduces it. -/
theorem C7_pass1_idempotent_on_safe_terms_witness :
    run_pass1 gctx "main" c7w_b = some c7w_b :=
  C7_pass1_idempotent_on_safe_terms gctx "main" c7w_b c7w_b (by decide)
    (by simp [run_pass1, c7w_b, bexpr_size, vexpr_size, vexpr_size_list,
      pass1_visit_bexpr, pass1_visit_vexprs, pass1_visit_vexpr, pass1_rewrite_ident,
      VType.from_ast_type, gctx,
      constants.PC_VAR, constants.RETURNED_FLAG, constants.PRIV_VAR,
      constants.MEM_VAR_B, constants.MEM_VAR_H, constants.MEM_VAR_W, constants.MEM_VAR_D,
      constants.A0, constants.SP, constants.RA, DwarfCtx.func_sig, alistGet,
      DwarfCtx.global_var_type, DwarfCtx.global_var])

theorem except_foldlM_suffix {α β ε : Type} (P : β → Prop)
    (f : List β → α → Except ε (List β))
    (hf : ∀ acc x out, f acc x = Except.ok out →
      ∃ suf, out = acc ++ suf ∧ ∀ c ∈ suf, P c) :
    ∀ (l : List α) (acc out : List β), List.foldlM f acc l = Except.ok out →
      ∃ suf, out = acc ++ suf ∧ ∀ c ∈ suf, P c
  | [], acc, out, h => by
      obtain rfl : acc = out := by simpa [List.foldlM_nil, pure, Except.pure] using h
      exact ⟨[], by simp, by simp⟩
  | x :: xs, acc, out, h => by
      rw [List.foldlM_cons] at h
      cases hx : f acc x with
      | error e => rw [hx] at h; simp [Bind.bind, Except.bind] at h
      | ok acc1 =>
          rw [hx] at h
          simp only [Bind.bind, Except.bind] at h
          obtain ⟨s1, rfl, hP1⟩ := hf acc x acc1 hx
          obtain ⟨s2, rfl, hP2⟩ := except_foldlM_suffix P f hf xs (acc ++ s1) out h
          refine ⟨s1 ++ s2, by simp, ?_⟩
          intro c hc
          rcases List.mem_append.mp hc with h1 | h2
          exacts [hP1 c h1, hP2 c h2]

open veriv_ast dwarf translator in
theorem guarded_call_eq (xlen entry : Nat) (blk : Stmt) :
    guarded_call xlen entry blk =
      some (Stmt.IfThenElse
        (Expr.OpApp (Op.Bool BoolOp.Conj)
          [Expr.OpApp (Op.Comp CompOp.Equality)
             [Expr.Var (system_model.pc_var xlen) (system_model.bv_type xlen),
              Expr.bv_lit entry xlen] Ty.Bool,
           Expr.OpApp (Op.Comp CompOp.Equality)
             [Expr.var constants.RETURNED_FLAG (system_model.bv_type 1),
              Expr.bv_lit 0 1] Ty.Bool] Ty.Bool)
        blk none) := rfl

open veriv_ast dwarf translator in
/-- C3: every body `cfg_to_symbolic_blk` builds is a block of guarded
clauses followed by the final assignment `returned = 1bv1`; each clause is
an `IfThenElse` with no else branch whose condition is the conjunction
`pc == <addr> && returned == 0bv1`, and whose then-branch is either the
call of the basic-block procedure `bb_<addr>` of that same address, or a
function call followed by the reset `returned = 0bv1`. -/
theorem C3_bb_calls_guarded_and_returned_set (xlen : Nat)
    (bbs : List (Nat × BasicBlockInfo)) (d : DwarfCtx) (ignored : List String)
    (func_entry_addr : Nat) (cfg : Cfg) (body : Stmt)
    (h : cfg_to_symbolic_blk xlen bbs d ignored func_entry_addr cfg = Except.ok body) :
    ∃ clauses : List Stmt,
      body = Stmt.Block (clauses ++
        [Stmt.assign [Expr.var constants.RETURNED_FLAG (system_model.bv_type 1)]
          [Expr.bv_lit 1 1]]) ∧
      ∀ c ∈ clauses, ∃ (a : Nat) (thn : List Stmt),
        c = Stmt.IfThenElse
          (Expr.OpApp (Op.Bool BoolOp.Conj)
            [Expr.OpApp (Op.Comp CompOp.Equality)
               [Expr.Var (system_model.pc_var xlen) (system_model.bv_type xlen),
                Expr.bv_lit a xlen] Ty.Bool,
             Expr.OpApp (Op.Comp CompOp.Equality)
               [Expr.var constants.RETURNED_FLAG (system_model.bv_type 1),
                Expr.bv_lit 0 1] Ty.Bool] Ty.Bool)
          (Stmt.Block thn) none ∧
        (thn = [Stmt.func_call (bb_proc_name a) [] []] ∨
         ∃ (fn : String) (fargs : List Expr),
           thn = [Stmt.func_call fn [] fargs,
             Stmt.assign [Expr.var constants.RETURNED_FLAG (system_model.bv_type 1)]
               [Expr.bv_lit 0 1]]) := by
  unfold cfg_to_symbolic_blk at h
  simp only [Bind.bind, Except.bind] at h
  split at h
  · simp at h
  · rename_i sorted hsort
    split at h
    · simp at h
    · rename_i stmts_vec hfold
      simp only [pure, Except.pure, Except.ok.injEq] at h
      subst h
      have key := except_foldlM_suffix
        (fun c => ∃ (a : Nat) (thn : List Stmt),
          c = Stmt.IfThenElse
            (Expr.OpApp (Op.Bool BoolOp.Conj)
              [Expr.OpApp (Op.Comp CompOp.Equality)
                 [Expr.Var (system_model.pc_var xlen) (system_model.bv_type xlen),
                  Expr.bv_lit a xlen] Ty.Bool,
               Expr.OpApp (Op.Comp CompOp.Equality)
                 [Expr.var constants.RETURNED_FLAG (system_model.bv_type 1),
                  Expr.bv_lit 0 1] Ty.Bool] Ty.Bool)
            (Stmt.Block thn) none ∧
          (thn = [Stmt.func_call (bb_proc_name a) [] []] ∨
           ∃ (fn : String) (fargs : List Expr),
             thn = [Stmt.func_call fn [] fargs,
               Stmt.assign [Expr.var constants.RETURNED_FLAG (system_model.bv_type 1)]
                 [Expr.bv_lit 0 1]]))
        _ ?_ sorted [] stmts_vec hfold
      case _ =>
        obtain ⟨suf, hout, hP⟩ := key
        exact ⟨stmts_vec, rfl, by rw [hout]; simpa using hP⟩
      · intro acc x out hstep
        split at hstep
        · simp at hstep
        · rename_i cfg_node heq_node
          split at hstep
          · obtain rfl : acc = out := by simpa [pure, Except.pure] using hstep
            exact ⟨[], by simp, by simp⟩
          · split at hstep
            · rename_i err heq_g
              rw [guarded_call_eq] at heq_g
              simp [liftO] at heq_g
            · rename_i gcall heq_g
              rw [guarded_call_eq] at heq_g
              simp only [liftO, Except.ok.injEq] at heq_g
              subst heq_g
              split at hstep
              · split at hstep
                · simp at hstep
                · rename_i imm heq_imm
                  split at hstep
                  · simp at hstep
                  · rename_i tnode heq_tgt
                    split at hstep
                    · split at hstep
                      · simp at hstep
                      · rename_i fopt heq_ga
                        split at hstep
                        · simp at hstep
                        · rename_i fn heq_f
                          split at hstep
                          · rename_i err heq_g2
                            rw [guarded_call_eq] at heq_g2
                            simp [liftO] at heq_g2
                          · rename_i gcall2 heq_g2
                            rw [guarded_call_eq] at heq_g2
                            simp only [liftO, Except.ok.injEq] at heq_g2
                            subst heq_g2
                            obtain rfl : acc ++ [_] ++ [_] = out := by
                              simpa [pure, Except.pure] using hstep
                            refine ⟨_, List.append_assoc acc _ _, ?_⟩
                            intro c hc
                            rcases List.mem_append.mp hc with h1 | h2
                            · rcases List.mem_singleton.mp h1 with rfl
                              exact ⟨x, _, rfl, Or.inl rfl⟩
                            · rcases List.mem_singleton.mp h2 with rfl
                              exact ⟨of_i64 imm, _, rfl, Or.inr ⟨fn, _, rfl⟩⟩
                    · obtain rfl : acc ++ [_] = out := by
                        simpa [pure, Except.pure] using hstep
                      refine ⟨_, rfl, ?_⟩
                      intro c hc
                      rcases List.mem_singleton.mp hc with rfl
                      exact ⟨x, _, rfl, Or.inl rfl⟩
              · obtain rfl : acc ++ [_] = out := by
                  simpa [pure, Except.pure] using hstep
                refine ⟨_, rfl, ?_⟩
                intro c hc
                rcases List.mem_singleton.mp hc with rfl
                exact ⟨x, _, rfl, Or.inl rfl⟩

open veriv_ast dwarf translator in
/-- Witness for C3 at the one-block fixture: the synthesized body is a
guarded-clause block ending in `returned = 1bv1`. -/
theorem C3_bb_calls_guarded_and_returned_set_witness :
    ∃ clauses : List Stmt,
      c3_body = Stmt.Block (clauses ++
        [Stmt.assign [Expr.var constants.RETURNED_FLAG (system_model.bv_type 1)]
          [Expr.bv_lit 1 1]]) ∧
      ∀ c ∈ clauses, ∃ (a : Nat) (thn : List Stmt),
        c = Stmt.IfThenElse
          (Expr.OpApp (Op.Bool BoolOp.Conj)
            [Expr.OpApp (Op.Comp CompOp.Equality)
               [Expr.Var (system_model.pc_var 64) (system_model.bv_type 64),
                Expr.bv_lit a 64] Ty.Bool,
             Expr.OpApp (Op.Comp CompOp.Equality)
               [Expr.var constants.RETURNED_FLAG (system_model.bv_type 1),
                Expr.bv_lit 0 1] Ty.Bool] Ty.Bool)
          (Stmt.Block thn) none ∧
        (thn = [Stmt.func_call (bb_proc_name a) [] []] ∨
         ∃ (fn : String) (fargs : List Expr),
           thn = [Stmt.func_call fn [] fargs,
             Stmt.assign [Expr.var constants.RETURNED_FLAG (system_model.bv_type 1)]
               [Expr.bv_lit 0 1]]) :=
  C3_bb_calls_guarded_and_returned_set 64 c3_bbs c3_dwarf [] 128 c3_cfg c3_body rfl

open translator in
theorem kahn_loop_stuck (edges : List (Nat × Nat)) (S : List Nat) (hne : S ≠ [])
    (hcyc : ∀ v ∈ S, ∃ u ∈ S, (u, v) ∈ edges) :
    ∀ (fuel : Nat) (remaining acc : List Nat), (∀ v ∈ S, v ∈ remaining) →
      kahn_loop edges fuel remaining acc = none
  | 0, remaining, acc, hsub => rfl
  | fuel + 1, remaining, acc, hsub => by
      obtain ⟨v0, hv0⟩ : ∃ v, v ∈ S := by
        cases S with
        | nil => exact absurd rfl hne
        | cons a t => exact ⟨a, by simp⟩
      have hnotready : ∀ v ∈ S,
          v ∉ sortByB (fun a b => decide (a ≤ b))
            (remaining.filter (fun v => ¬ remaining.any (fun u => (u, v) ∈ edges))) := by
        intro v hv hmem
        have hfil := (sortByB_perm (fun a b => decide (a ≤ b)) _).mem_iff.mp hmem
        rw [List.mem_filter] at hfil
        obtain ⟨u, hu, hedge⟩ := hcyc v hv
        have hany : remaining.any (fun u => decide ((u, v) ∈ edges)) = true := by
          rw [List.any_eq_true]
          exact ⟨u, hsub u hu, by simpa using hedge⟩
        simp [hany] at hfil
      simp only [kahn_loop]
      by_cases hrdy : (sortByB (fun a b => decide (a ≤ b))
          (remaining.filter (fun v => ¬ remaining.any (fun u => (u, v) ∈ edges)))).isEmpty
      · rw [if_pos hrdy, if_neg]
        simp only [List.isEmpty_iff]
        exact List.ne_nil_of_mem (hsub v0 hv0)
      · rw [if_neg hrdy]
        refine kahn_loop_stuck edges S hne hcyc fuel _ _ ?_
        intro v hv
        rw [List.mem_filter]
        refine ⟨hsub v hv, ?_⟩
        exact decide_eq_true
          (fun hcont => hnotready v hv (List.mem_of_elem_eq_true hcont))

open veriv_ast dwarf translator in
/-- C8: when the recorded dependency graph has a cycle — a nonempty set of
nodes each of which has a predecessor inside the set — the Kahn extraction
exhausts without emptying and `topo_sort` fails; on the concrete two-block
CFG `A = 0x1000 → B = 0x1004 → A` the reported error is
`CycleInCFG [A, B]` (the cycle found by `find_cycle`, reversed into
forward order), and `cfg_to_symbolic_blk` propagates that error, so no
body is built. -/
theorem C8_cfg_cycle_fails_with_cycle_error :
    (∀ (bbs : List (Nat × BasicBlockInfo)) (ignored : List String) (cfg : Cfg)
       (ts : TS) (processed : List Nat) (S : List Nat),
       compute_deps bbs ignored cfg (deps_fuel cfg) cfg.entry_addr
           (TS.insert ⟨[], []⟩ cfg.entry_addr) [] = Except.ok (ts, processed) →
       S ≠ [] → (∀ v ∈ S, v ∈ ts.nodes) →
       (∀ v ∈ S, ∃ u ∈ S, (u, v) ∈ ts.edges) →
       ∃ e, topo_sort bbs ignored cfg = Except.error e) ∧
    topo_sort c8_bbs [] c8_cfg = Except.error (TErr.CycleInCFG [4096, 4100]) ∧
    cfg_to_symbolic_blk 64 c8_bbs c8_dwarf [] 4096 c8_cfg =
      Except.error (TErr.CycleInCFG [4096, 4100]) := by
  refine ⟨?_, by rfl, by rfl⟩
  intro bbs ignored cfg ts processed S hdeps hne hS hcyc
  unfold topo_sort
  simp only [Bind.bind, Except.bind]
  rw [hdeps]
  have hk := kahn_loop_stuck ts.edges S hne hcyc (ts.nodes.length + 1) ts.nodes [] hS
  cases hfc : find_cycle ts.edges (ts.nodes.length + 1) [] cfg.entry_addr with
  | none => exact ⟨TErr.Missing "Should have found a cycle", by simp [hk, hfc]⟩
  | some cycle => exact ⟨TErr.CycleInCFG cycle.reverse, by simp [hk, hfc]⟩

open veriv_ast dwarf translator in
/-- Witness for C8 at the cyclic fixture: the set `{A, B}` is cyclic in
the recorded dependencies, so the sort fails. -/
theorem C8_cfg_cycle_fails_with_cycle_error_witness :
    ∃ e, topo_sort c8_bbs [] c8_cfg = Except.error e :=
  C8_cfg_cycle_fails_with_cycle_error.1 c8_bbs [] c8_cfg
    ⟨[4096, 4100], [(4096, 4100), (4100, 4096)]⟩ [4100, 4096] [4096, 4100]
    (by rfl) (by decide) (by decide) (by decide)
